import Mathlib

/-! ZiVPN management API: dual-store consistency

A shallow embedding of `zivpn-api.go`.  The two JSON files are the state, every
handler is a function from a request and a state to a response and a state, and
the library calls the handlers make (`json`, `time`, `ioutil`) are modelled by
what they return to the handler.

Modelling conventions
* A file is `missing`, `malformed` (the decoder reports an error and leaves some
  value in the target) or `valid`.
* `ioutil.WriteFile` either succeeds, and the file then holds the value that
  was marshalled, or fails, and the file is as it was.  Which of the two
  happens is an input of the handler, one value per file (`Disk`): the handler
  cannot tell, since every caller discards the error `saveConfig` and
  `saveUsers` return.
* Every write that succeeds and every `systemctl restart` is appended to an
  effect log, so that "nothing was written" is a statement about the state.
* An instant is a number of nanoseconds since the Unix epoch; the local zone is
  the function giving the UTC offset in force at a Unix second.
* `time.Now()` is an input of the handler, one value per call site.
-/

namespace Zivpn

/-! ## Data model -/

/-- The anonymous `Auth` struct of `Config`. -/
structure AuthSection where
  mode : String
  config : List String
deriving DecidableEq, Repr

/-- The `Config` struct. -/
structure Config where
  listen : String
  cert : String
  key : String
  obfs : String
  auth : AuthSection
deriving DecidableEq, Repr

/-- The `UserRequest` struct; `days` and `ipLimit` are Go `int`s. -/
structure UserRequest where
  password : String
  days : Int
  ipLimit : Int
deriving DecidableEq, Repr

/-- The `UserStore` struct. -/
structure UserStore where
  password : String
  expired : String
  status : String
deriving DecidableEq, Repr

/-- The values the handlers pass as `data` to `jsonResponse`: nothing, a
`map[string]string` given by its entries, or the registry. -/
inductive Data where
  | none
  | fields (kv : List (String × String))
  | users (us : List UserStore)
deriving DecidableEq, Repr

/-- The `Response` struct together with the HTTP status written before it. -/
structure Response where
  status : Nat
  success : Bool
  message : String
  data : Data
deriving DecidableEq, Repr

/-- The zero value of `Config` (`var config Config`). -/
def zeroConfig : Config := ⟨"", "", "", "", ⟨"", []⟩⟩

/-- The zero value of `UserRequest` (`var req UserRequest`). -/
def zeroRequest : UserRequest := ⟨"", 0, 0⟩

/-! ## Files and effects -/

/-- What a JSON file holds, as seen by `ReadFile` followed by `Unmarshal`. -/
inductive FileState (α : Type) where
  | missing
  | malformed (decoded : α)
  | valid (content : α)
deriving DecidableEq, Repr

/-- One externally visible action of a handler. -/
inductive Effect where
  | wroteConfig (c : Config)
  | wroteUsers (us : List UserStore)
  | restarted
deriving DecidableEq, Repr

/-- The state the handlers share: the two files and the effects issued so far. -/
structure World where
  configFile : FileState Config
  userDB : FileState (List UserStore)
  log : List Effect
deriving DecidableEq, Repr

/-- The function `loadConfig`: the decoded value and whether `err != nil`. -/
def loadConfig (w : World) : Config × Bool :=
  match w.configFile with
  | .missing => (zeroConfig, true)
  | .malformed c => (c, true)
  | .valid c => (c, false)

/-- The function `saveConfig`, for a `WriteFile` that succeeds (`ok`) or fails:
the state after the call and whether the error returned is not nil. -/
def saveConfig (ok : Bool) (c : Config) (w : World) : World × Bool :=
  if ok then ({ w with configFile := .valid c, log := w.log ++ [.wroteConfig c] }, false)
  else (w, true)

/-- The function `loadUsers`: a read error gives the nil slice, a decode error is dropped. -/
def loadUsers (w : World) : List UserStore :=
  match w.userDB with
  | .missing => []
  | .malformed us => us
  | .valid us => us

/-- The function `saveUsers`, for a `WriteFile` that succeeds (`ok`) or fails:
the state after the call and whether the error returned is not nil. -/
def saveUsers (ok : Bool) (us : List UserStore) (w : World) : World × Bool :=
  if ok then ({ w with userDB := .valid us, log := w.log ++ [.wroteUsers us] }, false)
  else (w, true)

/-- Whether the writes of one handler call succeed: the one of the auth config
file and the one of the registry file. -/
structure Disk where
  configOk : Bool
  usersOk : Bool
deriving DecidableEq, Repr

/-- Every write succeeds. -/
def allOk : Disk := ⟨true, true⟩

/-- The call `exec.Command("systemctl", "restart", "zivpn.service").Run()`. -/
def restartService (w : World) : World :=
  { w with log := w.log ++ [.restarted] }

/-! ## Time -/

/-- The local zone: the UTC offset, in seconds, in force at a Unix second. -/
structure Env where
  zone : Int → Int

/-- The location a `time.Time` carries. -/
inductive Loc where
  | utc
  | localZone
deriving DecidableEq, Repr

/-- A `time.Time`: nanoseconds since the Unix epoch and a location. -/
structure Time where
  ns : Int
  loc : Loc
deriving DecidableEq, Repr

/-- Conversion to a signed 64-bit integer, two's complement. -/
def wrap64 (x : Int) : Int := (x + 2 ^ 63) % 2 ^ 64 - 2 ^ 63

/-- The constant `time.Hour`, in nanoseconds. -/
def hour : Int := 3600000000000

/-- The expression `time.Duration(days) * 24 * time.Hour`, in `int64` arithmetic. -/
def duration (days : Int) : Int := wrap64 (wrap64 (wrap64 days * 24) * hour)

/-- The method `Time.Add`. -/
def Time.add (t : Time) (d : Int) : Time := { t with ns := t.ns + d }

/-- The method `Time.Before`. -/
def Time.before (t u : Time) : Bool := decide (t.ns < u.ns)

/-- The value of `time.Now()` for a clock reading. -/
def nowAt (ns : Int) : Time := ⟨ns, .localZone⟩

/-- Year, month and day of the proleptic Gregorian calendar for a day number
counted from 1970-01-01. -/
def civilFromDays (z : Int) : Int × Int × Int :=
  let z := z + 719468
  let era := z / 146097
  let doe := z - era * 146097
  let yoe := (doe - doe / 1460 + doe / 36524 - doe / 146096) / 365
  let doy := doe - (365 * yoe + yoe / 4 - yoe / 100)
  let mp := (5 * doy + 2) / 153
  let d := doy - (153 * mp + 2) / 5 + 1
  let m := if mp < 10 then mp + 3 else mp - 9
  (yoe + era * 400 + (if m ≤ 2 then 1 else 0), m, d)

/-- The day number, counted from 1970-01-01, of a calendar date. -/
def daysFromCivil (y m d : Int) : Int :=
  let y := if m ≤ 2 then y - 1 else y
  let era := y / 400
  let yoe := y - era * 400
  let doy := (153 * (if m > 2 then m - 3 else m + 9) + 2) / 5 + d - 1
  let doe := yoe * 365 + yoe / 4 - yoe / 100 + doy
  era * 146097 + doe - 719468

/-- Decimal digits of a number, left-padded with zeros to a width, with a sign. -/
def appendInt (x : Int) (width : Nat) : String :=
  let s := Nat.repr x.natAbs
  let body := String.mk (List.replicate (width - s.length) '0') ++ s
  if x < 0 then "-" ++ body else body

/-- The text of a day number in the layout `2006-01-02`. -/
def formatDay (day : Int) : String :=
  let (y, m, d) := civilFromDays day
  appendInt y 4 ++ "-" ++ appendInt m 2 ++ "-" ++ appendInt d 2

/-- The day number on which an instant falls in its location. -/
def Time.day (env : Env) (t : Time) : Int :=
  let sec := t.ns / 1000000000
  let off := match t.loc with
    | .utc => 0
    | .localZone => env.zone sec
  (sec + off) / 86400

/-- The call `t.Format("2006-01-02")`. -/
def Time.format (env : Env) (t : Time) : String := formatDay (t.day env)

/-- Whether a byte is a decimal digit. -/
def isDigit (c : Char) : Bool := decide ('0' ≤ c) && decide (c ≤ '9')

/-- The value of a decimal digit. -/
def digitVal (c : Char) : Int := (c.toNat : Int) - 48

/-- Whether a year is a leap year. -/
def isLeap (y : Int) : Bool := decide (y % 4 = 0) && (decide (y % 100 ≠ 0) || decide (y % 400 = 0))

/-- The number of days of a month. -/
def daysIn (m y : Int) : Int :=
  if m = 2 then (if isLeap y then 29 else 28)
  else if m = 4 ∨ m = 6 ∨ m = 9 ∨ m = 11 then 30 else 31

/-- The day number `time.Parse("2006-01-02", s)` yields, when it succeeds: four
digits, a dash, two digits, a dash, two digits, nothing more, with the month and
the day in range. -/
def parseDay (s : String) : Option Int :=
  match s.toList with
  | [y1, y2, y3, y4, s1, m1, m2, s2, d1, d2] =>
    if [y1, y2, y3, y4, m1, m2, d1, d2].all isDigit && s1 == '-' && s2 == '-' then
      let y := digitVal y1 * 1000 + digitVal y2 * 100 + digitVal y3 * 10 + digitVal y4
      let m := digitVal m1 * 10 + digitVal m2
      let d := digitVal d1 * 10 + digitVal d2
      if m < 1 ∨ 12 < m then none
      else if d < 1 ∨ daysIn m y < d then none
      else some (daysFromCivil y m d)
    else none
  | _ => none

/-- The zero `time.Time`: January 1 of year 1, UTC. -/
def zeroTime : Time := ⟨-62135596800 * 1000000000, .utc⟩

/-- The value left in `currentExp` by `currentExp, _ := time.Parse("2006-01-02", s)`. -/
def parseOrZero (s : String) : Time :=
  match parseDay s with
  | some day => ⟨day * 86400 * 1000000000, .utc⟩
  | none => zeroTime

/-! ## Requests and handlers -/

/-- What a handler reads of an HTTP request: the method, the path, the first
value of the `X-API-Key` header when the header is present, the value the JSON
decoder leaves in `req`, and whether the decoder returned an error. -/
structure Request where
  method : String
  path : String
  apiKey : Option String
  body : UserRequest
  bodyErr : Bool
deriving DecidableEq, Repr

/-- The call `r.Header.Get("X-API-Key")`: the empty string when the header is absent. -/
def headerGet (r : Request) : String :=
  match r.apiKey with
  | some v => v
  | none => ""

/-- The function `jsonResponse`. -/
def jsonResponse (status : Nat) (success : Bool) (message : String) (data : Data) : Response :=
  ⟨status, success, message, data⟩

/-- A handler, run on a request in a state. -/
abbrev Handler := Request → World → Response × World

/-- The function `authMiddleware`, for the value `AuthToken` holds. -/
def authMiddleware (authToken : String) (next : Handler) : Handler := fun r w =>
  if headerGet r ≠ authToken then
    (jsonResponse 401 false "Unauthorized" .none, w)
  else
    next r w

/-- The initial value of `AuthToken`. -/
def defaultToken : String := "AutoFtBot-agskjgdvsbdreiWG1234512SDKrqw"

/-- The predicate `unicode.IsSpace`. -/
def isSpace (c : Char) : Bool :=
  let n := c.toNat
  (9 ≤ n && n ≤ 13) || n == 32 || n == 133 || n == 160 || n == 5760 ||
    (8192 ≤ n && n ≤ 8202) || n == 8232 || n == 8233 || n == 8239 || n == 8287 || n == 12288

/-- The function `strings.TrimSpace`. -/
def trimSpace (s : String) : String :=
  String.mk ((s.toList.dropWhile isSpace).reverse.dropWhile isSpace).reverse

/-- The value of `AuthToken` once `main` has read the key file (`none`: unreadable). -/
def startupToken (keyFile : Option String) : String :=
  match keyFile with
  | some bytes => trimSpace bytes
  | none => defaultToken

/-- The expiration `createUser` computes at clock reading `now`. -/
def expDate (env : Env) (now : Int) (days : Int) : String :=
  ((nowAt now).add (duration days)).format env

/-- The function `createUser`, with `now` the value of its `time.Now()` and
`disk` the fate of its two writes. -/
def createUser (env : Env) (now : Int) (disk : Disk) : Handler := fun r w =>
  if r.method ≠ "POST" then
    (jsonResponse 405 false "Method not allowed" .none, w)
  else if r.bodyErr then
    (jsonResponse 400 false "Invalid request body" .none, w)
  else
    let req := r.body
    let (config, err) := loadConfig w
    if err then
      (jsonResponse 500 false "Gagal membaca config ZiVPN" .none, w)
    else
      let config := { config with auth := { config.auth with config := config.auth.config ++ [req.password] } }
      let w := (saveConfig disk.configOk config w).1
      let exp := expDate env now req.days
      let users := loadUsers w
      let users := users ++ [⟨req.password, exp, "active"⟩]
      let w := (saveUsers disk.usersOk users w).1
      let w := restartService w
      (jsonResponse 200 true "User ZiVPN berhasil dibuat"
        (.fields [("password", req.password), ("expired", exp)]), w)

/-- The loops of `deleteUser`: starting from an empty slice, append every
element that passes the test. -/
def keepLoop {α : Type} (keep : α → Bool) (xs : List α) : List α :=
  xs.foldl (fun acc x => if keep x then acc ++ [x] else acc) []

/-- The function `deleteUser`, with `disk` the fate of its two writes. -/
def deleteUser (disk : Disk) : Handler := fun r w =>
  let req := r.body
  let (config, _) := loadConfig w
  let newAuth := keepLoop (fun p => p != req.password) config.auth.config
  let config := { config with auth := { config.auth with config := newAuth } }
  let w := (saveConfig disk.configOk config w).1
  let users := loadUsers w
  let newUsers := keepLoop (fun u => u.password != req.password) users
  let w := (saveUsers disk.usersOk newUsers w).1
  let w := restartService w
  (jsonResponse 200 true "User berhasil dihapus" .none, w)

/-- The expiration `renewUser` gives a record whose `Expired` field is `expired`,
with `now₁` and `now₂` the values of its two `time.Now()` calls. -/
def renewedExp (env : Env) (now₁ now₂ : Int) (days : Int) (expired : String) : String :=
  let currentExp := parseOrZero expired
  let currentExp := if currentExp.before (nowAt now₁) then nowAt now₂ else currentExp
  (currentExp.add (duration days)).format env

/-- The loop of `renewUser`: the slice after the loop and the value of `newExp`. -/
def renewLoop (env : Env) (now₁ now₂ : Int) (password : String) (days : Int) :
    List UserStore → List UserStore × String
  | [] => ([], "")
  | u :: rest =>
    if u.password = password then
      let newExp := renewedExp env now₁ now₂ days u.expired
      ({ u with expired := newExp } :: rest, newExp)
    else
      let r := renewLoop env now₁ now₂ password days rest
      (u :: r.1, r.2)

/-- The function `renewUser`, with `now₁` and `now₂` the values of its two
`time.Now()` calls and `ok` the fate of its write. -/
def renewUser (env : Env) (now₁ now₂ : Int) (ok : Bool) : Handler := fun r w =>
  let req := r.body
  let users := loadUsers w
  let (users, newExp) := renewLoop env now₁ now₂ req.password req.days users
  let w := (saveUsers ok users w).1
  (jsonResponse 200 true "User berhasil diperpanjang" (.fields [("expired", newExp)]), w)

/-- The function `listUsers`. -/
def listUsers : Handler := fun _ w =>
  (jsonResponse 200 true "Daftar User ZiVPN" (.users (loadUsers w)), w)

/-! ## Sequences of create and delete -/

/-- One create or delete call. -/
inductive Op where
  | create (env : Env) (now : Int) (disk : Disk) (r : Request)
  | delete (disk : Disk) (r : Request)

/-- The fate of the writes of a call. -/
def Op.disk : Op → Disk
  | .create _ _ disk _ => disk
  | .delete disk _ => disk

/-- The state after one call. -/
def Op.run (o : Op) (w : World) : World :=
  match o with
  | .create env now disk r => (createUser env now disk r w).2
  | .delete disk r => (deleteUser disk r w).2

/-- The state after a sequence of calls, first to last. -/
def runOps (ops : List Op) (w : World) : World := ops.foldl (fun w o => o.run w) w

/-- The passwords of the auth config list, as `loadConfig` decodes it. -/
def authPasswords (w : World) : List String := (loadConfig w).1.auth.config

/-- The passwords of the user registry, as `loadUsers` decodes it. -/
def registryPasswords (w : World) : List String := (loadUsers w).map (fun u => u.password)

/-- Set parity: the two stores hold the same set of passwords. -/
def Parity (w : World) : Prop := ∀ p, p ∈ authPasswords w ↔ p ∈ registryPasswords w

/-- The UTC zone. -/
def utcEnv : Env := ⟨fun _ => 0⟩

/-- Two empty stores, nothing issued yet. -/
def emptyWorld : World := ⟨.valid zeroConfig, .valid [], []⟩

/-! ## Concurrent `createUser` calls

Every request runs `createUser` on a goroutine of its own.  A goroutine is at
one of the points below; one step is one statement that reads or writes what
the goroutines share (the mutex, the two files, the service), together with the
local computation that follows it.  `mutex.Lock()` can be taken only while the
mutex is unlocked, and the deferred `mutex.Unlock()` runs after the response is
written. -/

/-- One `createUser` call: its request, the value of its `time.Now()` and the
fate of its two writes. -/
structure Call where
  req : Request
  now : Int
  disk : Disk

/-- The point a goroutine running `createUser` has reached, named after what it
has just done:
* `start`: nothing yet; next the method check and `Decode`;
* `waiting`: the checks passed; next `mutex.Lock()`;
* `locked`: the mutex is taken; next `loadConfig`;
* `loaded`: the config is read; next the append and `saveConfig`;
* `savedConfig`: next `time.Now()` and `loadUsers`;
* `loadedUsers`: next the append and `saveUsers`;
* `savedUsers`: next the restart of the service;
* `restarted`: next `jsonResponse`;
* `unlocking`: the response is written; next the deferred `mutex.Unlock()`;
* `done`: the handler has returned. -/
inductive Pc where
  | start
  | waiting
  | locked
  | loaded (config : Config)
  | savedConfig
  | loadedUsers (exp : String) (users : List UserStore)
  | savedUsers (exp : String)
  | restarted (exp : String)
  | unlocking (resp : Response)
  | done (resp : Response)
deriving DecidableEq, Repr

/-- Whether the handler has returned. -/
def Pc.isDone : Pc → Bool
  | .done _ => true
  | _ => false

/-- Whether the goroutine is between `mutex.Lock()` and `mutex.Unlock()`. -/
def Pc.crit : Pc → Bool
  | .start => false
  | .waiting => false
  | .done _ => false
  | _ => true

/-- The number of steps a goroutine has at most left. -/
def Pc.rank : Pc → Nat
  | .start => 9
  | .waiting => 8
  | .locked => 7
  | .loaded _ => 6
  | .savedConfig => 5
  | .loadedUsers _ _ => 4
  | .savedUsers _ => 3
  | .restarted _ => 2
  | .unlocking _ => 1
  | .done _ => 0

/-- The shared state and the points of the `n` goroutines. -/
structure Sys (n : Nat) where
  world : World
  locked : Bool
  pc : Fin n → Pc

/-- The state before any goroutine has run. -/
def Sys.init (n : Nat) (w : World) : Sys n := ⟨w, false, fun _ => .start⟩

/-- Goroutine `i` moves to point `p`. -/
def Sys.goto {n : Nat} (s : Sys n) (i : Fin n) (p : Pc) : Sys n :=
  { s with pc := fun j => if j = i then p else s.pc j }

/-- The next step of goroutine `i`, when it can take one. -/
def step {n : Nat} (env : Env) (calls : Fin n → Call) (i : Fin n) (s : Sys n) : Option (Sys n) :=
  let r := (calls i).req
  match s.pc i with
  | .start =>
    if r.method ≠ "POST" then
      some (s.goto i (.done (jsonResponse 405 false "Method not allowed" .none)))
    else if r.bodyErr then
      some (s.goto i (.done (jsonResponse 400 false "Invalid request body" .none)))
    else
      some (s.goto i .waiting)
  | .waiting =>
    if s.locked then none else some (Sys.goto { s with locked := true } i .locked)
  | .locked =>
    let (config, err) := loadConfig s.world
    if err then
      some (s.goto i (.unlocking (jsonResponse 500 false "Gagal membaca config ZiVPN" .none)))
    else
      some (s.goto i (.loaded config))
  | .loaded config =>
    let config := { config with auth := { config.auth with config := config.auth.config ++ [r.body.password] } }
    some (Sys.goto { s with world := (saveConfig (calls i).disk.configOk config s.world).1 }
      i .savedConfig)
  | .savedConfig =>
    some (s.goto i (.loadedUsers (expDate env (calls i).now r.body.days) (loadUsers s.world)))
  | .loadedUsers exp users =>
    some (Sys.goto { s with
        world := (saveUsers (calls i).disk.usersOk
          (users ++ [⟨r.body.password, exp, "active"⟩]) s.world).1 }
      i (.savedUsers exp))
  | .savedUsers exp =>
    some (Sys.goto { s with world := restartService s.world } i (.restarted exp))
  | .restarted exp =>
    some (s.goto i (.unlocking (jsonResponse 200 true "User ZiVPN berhasil dibuat"
      (.fields [("password", r.body.password), ("expired", exp)]))))
  | .unlocking resp =>
    some (Sys.goto { s with locked := false } i (.done resp))
  | .done _ => none

/-- The state after a schedule: the goroutines named, in turn, each take one
step; a goroutine that cannot take a step leaves the state as it is. -/
def run {n : Nat} (env : Env) (calls : Fin n → Call) : List (Fin n) → Sys n → Sys n
  | [], s => s
  | i :: rest, s =>
    match step env calls i s with
    | some s' => run env calls rest s'
    | none => run env calls rest s

/-- Every handler has returned. -/
def Sys.allDone {n : Nat} (s : Sys n) : Prop := ∀ i, (s.pc i).isDone = true

/-- The state after the calls have run one after the other, in the given order. -/
def serial {n : Nat} (env : Env) (calls : Fin n → Call) (order : List (Fin n)) (w : World) : World :=
  order.foldl (fun w i => (createUser env (calls i).now (calls i).disk (calls i).req w).2) w

/-- The record a call appends to the registry. -/
def Call.record (env : Env) (c : Call) : UserStore :=
  ⟨c.req.body.password, expDate env c.now c.req.body.days, "active"⟩

/-- The sum of the ranks of the goroutines. -/
def measure {n : Nat} (pc : Fin n → Pc) : Nat := Finset.univ.sum (fun i => (pc i).rank)

/-- The state after the `saveConfig` of a call that found state `wb` at its `loadConfig`. -/
def afterSaveConfig (c : Call) (wb : World) : World :=
  (saveConfig c.disk.configOk { (loadConfig wb).1 with
    auth := { (loadConfig wb).1.auth with
      config := (loadConfig wb).1.auth.config ++ [c.req.body.password] } } wb).1

/-- The state after the `saveUsers` of a call that found state `wb` at its `loadConfig`. -/
def afterSaveUsers (env : Env) (c : Call) (wb : World) : World :=
  (saveUsers c.disk.usersOk (loadUsers wb ++ [c.record env]) (afterSaveConfig c wb)).1

/-- What holds of the goroutine inside the critical section: its locals and the
shared state are those of a `createUser` call that started in state `wb`. -/
def Holder (env : Env) (c : Call) (p : Pc) (world wb : World) : Prop :=
  match p with
  | .locked => world = wb
  | .loaded config => world = wb ∧ loadConfig wb = (config, false)
  | .savedConfig => (loadConfig wb).2 = false ∧ world = afterSaveConfig c wb
  | .loadedUsers exp users =>
    (loadConfig wb).2 = false ∧ world = afterSaveConfig c wb ∧
      exp = expDate env c.now c.req.body.days ∧ users = loadUsers wb
  | .savedUsers exp =>
    (loadConfig wb).2 = false ∧ world = afterSaveUsers env c wb ∧
      exp = expDate env c.now c.req.body.days
  | .restarted exp =>
    (loadConfig wb).2 = false ∧ world = restartService (afterSaveUsers env c wb) ∧
      exp = expDate env c.now c.req.body.days
  | .unlocking resp => (resp, world) = createUser env c.now c.disk c.req wb
  | _ => False

/-- The mutex side of the invariant: either the mutex is unlocked, nobody is
inside and the shared state is `wb`, or it is locked and exactly one goroutine
is inside, started from `wb`. -/
def LockSide {n : Nat} (env : Env) (calls : Fin n → Call) (s : Sys n) (wb : World) : Prop :=
  (s.locked = false ∧ (∀ j, (s.pc j).crit = false) ∧ s.world = wb) ∨
  (s.locked = true ∧ ∃ h, Holder env (calls h) (s.pc h) s.world wb ∧
    ∀ j, j ≠ h → (s.pc j).crit = false)

/-- The bookkeeping side of the invariant: `order` lists the goroutines that
have returned, in the order of their return, each with the response of its call
run after those before it; a goroutine past the method and body checks has a
`POST` request with a decodable body. -/
structure DoneSide {n : Nat} (env : Env) (calls : Fin n → Call) (w₀ : World)
    (pc : Fin n → Pc) (order : List (Fin n)) : Prop where
  nodup : order.Nodup
  mem : ∀ i, i ∈ order ↔ (pc i).isDone = true
  resp : ∀ i r, pc i = .done r → ∃ pre post, order = pre ++ i :: post ∧
    r = (createUser env (calls i).now (calls i).disk (calls i).req (serial env calls pre w₀)).1
  passed : ∀ i, pc i = .waiting ∨ (pc i).crit = true →
    (calls i).req.method = "POST" ∧ (calls i).req.bodyErr = false

/-- The invariant of the concurrent system. -/
def Inv {n : Nat} (env : Env) (calls : Fin n → Call) (w₀ : World) (s : Sys n) : Prop :=
  ∃ order, DoneSide env calls w₀ s.pc order ∧ LockSide env calls s (serial env calls order w₀)

/-! ## Sample inputs -/

/-- A create request for `abc123`, thirty days, two addresses. -/
def sampleCreate : Request := ⟨"POST", "/api/user/create", some defaultToken, ⟨"abc123", 30, 2⟩, false⟩

/-- A delete request for a password. -/
def sampleDelete (password : String) : Request :=
  ⟨"POST", "/api/user/delete", some defaultToken, ⟨password, 0, 0⟩, false⟩

/-- Midnight UTC of 2024-01-01, in nanoseconds since the epoch. -/
def jan1 : Int := 19723 * 86400 * 1000000000

/-- Two stores holding `a`, `b`, `a` and the matching records. -/
def sampleWorld : World :=
  ⟨.valid ⟨":5667", "/etc/zivpn/zivpn.crt", "/etc/zivpn/zivpn.key", "zivpn", ⟨"passwords", ["a", "b", "a"]⟩⟩,
   .valid [⟨"a", "2024-01-31", "active"⟩, ⟨"b", "2024-02-01", "active"⟩, ⟨"a", "2024-03-01", "active"⟩],
   []⟩

/-- A renew request. -/
def sampleRenew (password : String) (days : Int) : Request :=
  ⟨"POST", "/api/user/renew", some defaultToken, ⟨password, days, 0⟩, false⟩

/-- Midnight UTC of 2024-01-15, in nanoseconds since the epoch. -/
def jan15 : Int := 19737 * 86400 * 1000000000

/-- Midnight UTC of 2024-02-01, in nanoseconds since the epoch. -/
def feb1 : Int := 19754 * 86400 * 1000000000

/-- A registry with the single record `abc123` expiring on the given date. -/
def oneUser (expired : String) : World :=
  ⟨.valid zeroConfig, .valid [⟨"abc123", expired, "active"⟩], []⟩

/-- A create request for `abc123` with the given number of days. -/
def createFor (days : Int) : Request :=
  ⟨"POST", "/api/user/create", some defaultToken, ⟨"abc123", days, 2⟩, false⟩

/-- A delete request for `a` that carries no `X-API-Key` header. -/
def noKeyDelete : Request := ⟨"POST", "/api/user/delete", none, ⟨"a", 0, 0⟩, false⟩

/-- Two create calls, for `u1` and `u2`, on 2024-01-01 and 2024-01-15. -/
def twoCalls : Fin 2 → Call := fun i =>
  if i = 0 then ⟨⟨"POST", "/api/user/create", some defaultToken, ⟨"u1", 30, 1⟩, false⟩, jan1, allOk⟩
  else ⟨⟨"POST", "/api/user/create", some defaultToken, ⟨"u2", 7, 1⟩, false⟩, jan15, allOk⟩

/-- A schedule in which the second goroutine takes the mutex first and the
first one keeps trying while the second is inside. -/
def twoSchedule : List (Fin 2) :=
  [1, 0, 1, 0, 1, 0, 1, 0, 1, 0, 1, 0, 1, 0, 1, 0, 1, 0, 0, 0, 0, 0, 0, 0, 0, 0]

/-- A zone five hours west of UTC. -/
def westEnv : Env := ⟨fun _ => -18000⟩

/-- A zone two hours east of UTC until 2024-10-27 01:00 UTC and one hour east
from then on: the end of summer time in central Europe. -/
def summerEnv : Env := ⟨fun sec => if sec < 20023 * 86400 + 3600 then 7200 else 3600⟩

/-- One second after midnight UTC of 2024-01-31: 19:00:01 on 2024-01-30 five
hours west of UTC. -/
def jan31Utc : Int := (19753 * 86400 + 1) * 1000000000

/-- The instant 2024-10-26 22:30 UTC: 00:30 on 2024-10-27, summer time, two
hours east of UTC. -/
def oct27 : Int := (20023 * 86400 - 5400) * 1000000000

/-- A single create call for `abc123`, thirty days, on 2024-01-01. -/
def oneCall (disk : Disk) : Fin 1 → Call := fun _ => ⟨createFor 30, jan1, disk⟩

/-- The schedule that runs a single goroutine to its return. -/
def oneSchedule : List (Fin 1) := [0, 0, 0, 0, 0, 0, 0, 0, 0]

/-! ## Lemmas -/

/-- The append loop, started from any slice, adds the kept elements in order. -/
theorem foldl_keep_eq {α : Type} (keep : α → Bool) (xs acc : List α) :
    xs.foldl (fun acc x => if keep x then acc ++ [x] else acc) acc = acc ++ xs.filter keep := by
  induction xs generalizing acc with
  | nil => simp
  | cons x xs ih =>
    simp only [List.foldl_cons, List.filter_cons]
    by_cases h : keep x <;> simp [h, ih]

/-- The append loop computes the filter. -/
theorem keepLoop_eq_filter {α : Type} (keep : α → Bool) (xs : List α) :
    keepLoop keep xs = xs.filter keep := by
  simp [keepLoop, foldl_keep_eq]

/-- A saved config is read back without error. -/
theorem loadConfig_saveConfig (c : Config) (w : World) :
    loadConfig (saveConfig true c w).1 = (c, false) := rfl

/-- A config write that fails leaves the state as it was. -/
theorem saveConfig_failed (c : Config) (w : World) : (saveConfig false c w).1 = w := rfl

/-- A registry write that fails leaves the state as it was. -/
theorem saveUsers_failed (us : List UserStore) (w : World) : (saveUsers false us w).1 = w := rfl

/-- Saving the config, whether it succeeds or not, leaves the registry as it was. -/
theorem loadUsers_saveConfig (ok : Bool) (c : Config) (w : World) :
    loadUsers (saveConfig ok c w).1 = loadUsers w := by
  cases ok <;> rfl

/-- Saving the registry, whether it succeeds or not, leaves the auth config as it was. -/
theorem configFile_saveUsers (ok : Bool) (us : List UserStore) (w : World) :
    (saveUsers ok us w).1.configFile = w.configFile := by
  cases ok <;> rfl

/-- The registry after a write that succeeds. -/
theorem loadUsers_saveUsers (us : List UserStore) (w : World) :
    loadUsers (saveUsers true us w).1 = us := rfl

/-- A value in the `int64` range is not changed by the conversion. -/
theorem wrap64_of_range (x : Int) (h₁ : -2 ^ 63 ≤ x) (h₂ : x < 2 ^ 63) : wrap64 x = x := by
  unfold wrap64
  omega

/-- The duration does not wrap for at most 106751 days either way. -/
theorem duration_of_range (days : Int) (h₁ : -106751 ≤ days) (h₂ : days ≤ 106751) :
    duration days = days * 86400000000000 := by
  unfold duration hour
  rw [wrap64_of_range days (by omega) (by omega), wrap64_of_range (days * 24) (by omega) (by omega),
    wrap64_of_range _ (by omega) (by omega)]
  ring

/-- A call that fails the method check, the decoding or `loadConfig` leaves the
state as it was. -/
theorem createUser_rejected (env : Env) (now : Int) (disk : Disk) (r : Request) (w : World)
    (h : r.method ≠ "POST" ∨ r.bodyErr = true ∨ (loadConfig w).2 = true) :
    (createUser env now disk r w).2 = w := by
  unfold createUser
  by_cases hm : r.method = "POST"
  · by_cases hb : r.bodyErr = true
    · simp [hm, hb]
    · by_cases hc : (loadConfig w).2 = true
      · simp [hm, hb, hc]
      · simp [hm, hb, hc] at h
  · simp [hm]

/-- The outcome of a call that passes the three checks. -/
theorem createUser_accepted (env : Env) (now : Int) (disk : Disk) (r : Request) (w : World)
    (hm : r.method = "POST") (hb : r.bodyErr = false) (hc : (loadConfig w).2 = false) :
    createUser env now disk r w =
      (jsonResponse 200 true "User ZiVPN berhasil dibuat"
        (.fields [("password", r.body.password), ("expired", expDate env now r.body.days)]),
       restartService (saveUsers disk.usersOk
         (loadUsers w ++ [⟨r.body.password, expDate env now r.body.days, "active"⟩])
         (saveConfig disk.configOk { (loadConfig w).1 with
           auth := { (loadConfig w).1.auth with
             config := (loadConfig w).1.auth.config ++ [r.body.password] } } w).1).1) := by
  unfold createUser
  simp [hm, hb, hc, loadUsers_saveConfig]

/-- The outcome of `deleteUser`, with its loops written as filters. -/
theorem deleteUser_eq (disk : Disk) (r : Request) (w : World) :
    deleteUser disk r w =
      (jsonResponse 200 true "User berhasil dihapus" .none,
       restartService (saveUsers disk.usersOk
         ((loadUsers w).filter (fun u => u.password != r.body.password))
         (saveConfig disk.configOk { (loadConfig w).1 with
           auth := { (loadConfig w).1.auth with
             config := (loadConfig w).1.auth.config.filter (fun q => q != r.body.password) } }
           w).1).1) := by
  unfold deleteUser
  simp [keepLoop_eq_filter, loadUsers_saveConfig]

/-- The function `createUser` preserves set parity when its two writes have the
same fate. -/
theorem parity_createUser (env : Env) (now : Int) (disk : Disk) (r : Request) (w : World)
    (hd : disk.configOk = disk.usersOk) (h : Parity w) :
    Parity (createUser env now disk r w).2 := by
  by_cases hr : r.method ≠ "POST" ∨ r.bodyErr = true ∨ (loadConfig w).2 = true
  · rw [createUser_rejected env now disk r w hr]
    exact h
  · simp only [not_or, ne_eq, not_not, Bool.not_eq_true] at hr
    rw [createUser_accepted env now disk r w hr.1 hr.2.1 hr.2.2]
    rw [← hd]
    cases disk.configOk
    · exact h
    · intro p
      have hp := h p
      simp only [authPasswords, registryPasswords] at hp ⊢
      simp [restartService, saveUsers, saveConfig, loadConfig, loadUsers] at hp ⊢
      rw [hp]

/-- The function `deleteUser` preserves set parity when its two writes have the
same fate. -/
theorem parity_deleteUser (disk : Disk) (r : Request) (w : World)
    (hd : disk.configOk = disk.usersOk) (h : Parity w) :
    Parity (deleteUser disk r w).2 := by
  rw [deleteUser_eq, ← hd]
  cases disk.configOk
  · exact h
  · intro p
    have hp := h p
    simp only [authPasswords, registryPasswords] at hp ⊢
    simp [restartService, saveUsers, saveConfig, loadConfig, loadUsers] at hp ⊢
    constructor
    · rintro ⟨h₁, h₂⟩
      obtain ⟨u, hu, rfl⟩ := hp.mp h₁
      exact ⟨u, ⟨hu, h₂⟩, rfl⟩
    · rintro ⟨u, ⟨hu, h₂⟩, rfl⟩
      exact ⟨hp.mpr ⟨u, hu, rfl⟩, h₂⟩

/-- The loop of `renewUser` keeps the number of records. -/
theorem renewLoop_length (env : Env) (now₁ now₂ : Int) (pw : String) (days : Int)
    (us : List UserStore) : (renewLoop env now₁ now₂ pw days us).1.length = us.length := by
  induction us with
  | nil => rfl
  | cons u rest ih =>
    unfold renewLoop
    by_cases h : u.password = pw <;> simp [h, ih]

/-- The loop of `renewUser` keeps the passwords, in order. -/
theorem renewLoop_password (env : Env) (now₁ now₂ : Int) (pw : String) (days : Int)
    (us : List UserStore) :
    (renewLoop env now₁ now₂ pw days us).1.map (fun u => u.password) = us.map (fun u => u.password) := by
  induction us with
  | nil => rfl
  | cons u rest ih =>
    unfold renewLoop
    by_cases h : u.password = pw <;> simp [h, ih]

/-- The loop of `renewUser` keeps the statuses, in order. -/
theorem renewLoop_status (env : Env) (now₁ now₂ : Int) (pw : String) (days : Int)
    (us : List UserStore) :
    (renewLoop env now₁ now₂ pw days us).1.map (fun u => u.status) = us.map (fun u => u.status) := by
  induction us with
  | nil => rfl
  | cons u rest ih =>
    unfold renewLoop
    by_cases h : u.password = pw <;> simp [h, ih]

/-- Without a matching record the loop changes nothing and `newExp` stays empty. -/
theorem renewLoop_no_match (env : Env) (now₁ now₂ : Int) (pw : String) (days : Int)
    (us : List UserStore) (h : ∀ u ∈ us, u.password ≠ pw) :
    renewLoop env now₁ now₂ pw days us = (us, "") := by
  induction us with
  | nil => rfl
  | cons u rest ih =>
    unfold renewLoop
    have hu : u.password ≠ pw := h u (List.mem_cons_self _ _)
    have hr := ih (fun v hv => h v (List.mem_cons_of_mem _ hv))
    simp [hu, hr]

/-- The loop rewrites the expiration of the first matching record and stops. -/
theorem renewLoop_first_match (env : Env) (now₁ now₂ : Int) (pw : String) (days : Int)
    (pre post : List UserStore) (u : UserStore) (hpre : ∀ v ∈ pre, v.password ≠ pw)
    (hu : u.password = pw) :
    renewLoop env now₁ now₂ pw days (pre ++ u :: post) =
      (pre ++ { u with expired := renewedExp env now₁ now₂ days u.expired } :: post,
       renewedExp env now₁ now₂ days u.expired) := by
  induction pre with
  | nil =>
    simp only [List.nil_append]
    unfold renewLoop
    simp [hu]
  | cons v pre ih =>
    have hv : v.password ≠ pw := hpre v (List.mem_cons_self _ _)
    have hr := ih (fun x hx => hpre x (List.mem_cons_of_mem _ hx))
    simp only [List.cons_append]
    unfold renewLoop
    simp [hv, hr]

/-- The loop leaves alone every record that does not match or comes after a match. -/
theorem renewLoop_frame (env : Env) (now₁ now₂ : Int) (pw : String) (days : Int)
    (us : List UserStore) (i : Nat)
    (h : (us[i]?).map (fun u => u.password) ≠ some pw ∨
      ∃ j, j < i ∧ (us[j]?).map (fun u => u.password) = some pw) :
    (renewLoop env now₁ now₂ pw days us).1[i]? = us[i]? := by
  induction us generalizing i with
  | nil => rfl
  | cons u rest ih =>
    unfold renewLoop
    by_cases hu : u.password = pw
    · simp only [hu, if_true]
      cases i with
      | zero =>
        rcases h with h | ⟨j, hj, _⟩
        · simp [hu] at h
        · omega
      | succ i => simp
    · simp only [hu, if_false]
      cases i with
      | zero => simp
      | succ i =>
        simp only [List.getElem?_cons_succ]
        apply ih
        rcases h with h | ⟨j, hj, hjp⟩
        · left
          simpa using h
        · right
          cases j with
          | zero => simp [hu] at hjp
          | succ j => exact ⟨j, by omega, by simpa using hjp⟩

/-- Midnight UTC of a day, moved by whole days, falls on the day that many days later. -/
theorem day_utc_of_days (env : Env) (day days : Int) :
    Time.day env ⟨day * 86400 * 1000000000 + days * 86400000000000, .utc⟩ = day + days := by
  simp only [Time.day]
  omega

/-- The renewed expiration when the duration does not wrap and the old one parses. -/
theorem renewedExp_of_range (env : Env) (now₁ now₂ days : Int) (expired : String) (dayE : Int)
    (hE : parseDay expired = some dayE) (h₁ : -106751 ≤ days) (h₂ : days ≤ 106751) :
    renewedExp env now₁ now₂ days expired =
      if dayE * 86400 * 1000000000 < now₁ then
        formatDay (Time.day env (nowAt (now₂ + days * 86400000000000)))
      else formatDay (dayE + days) := by
  simp only [renewedExp, parseOrZero, hE, duration_of_range days h₁ h₂, Time.before, nowAt]
  by_cases hlt : dayE * 86400 * 1000000000 < now₁
  · simp [hlt, Time.add, Time.format]
  · simp [hlt, Time.add, Time.format, day_utc_of_days]

/-- The expiration of `createUser` when the duration does not wrap. -/
theorem expDate_of_range (env : Env) (now days : Int) (h₁ : -106751 ≤ days) (h₂ : days ≤ 106751) :
    expDate env now days = formatDay (Time.day env (nowAt (now + days * 86400000000000))) := by
  simp [expDate, duration_of_range days h₁ h₂, Time.add, Time.format, nowAt]

/-- The local date does not move back when the UTC offset drops by no more than
the time added. -/
theorem localDay_le_of_nonneg (env : Env) (now days : Int)
    (hz : env.zone (now / 1000000000) - env.zone (now / 1000000000 + days * 86400) ≤
      86400 * days) :
    Time.day env (nowAt now) ≤ Time.day env (nowAt (now + days * 86400000000000)) := by
  simp only [Time.day, nowAt]
  have hs : (now + days * 86400000000000) / 1000000000 = now / 1000000000 + days * 86400 := by
    omega
  rw [hs]
  omega

/-- The local date does not move forward when the UTC offset rises by no more
than the time subtracted. -/
theorem localDay_le_of_nonpos (env : Env) (now days : Int)
    (hz : env.zone (now / 1000000000 + days * 86400) - env.zone (now / 1000000000) ≤
      86400 * (-days)) :
    Time.day env (nowAt (now + days * 86400000000000)) ≤ Time.day env (nowAt now) := by
  simp only [Time.day, nowAt]
  have hs : (now + days * 86400000000000) / 1000000000 = now / 1000000000 + days * 86400 := by
    omega
  rw [hs]
  omega

/-- Running one more call after a sequence. -/
theorem serial_append {n : Nat} (env : Env) (calls : Fin n → Call) (order : List (Fin n))
    (i : Fin n) (w : World) :
    serial env calls (order ++ [i]) w =
      (createUser env (calls i).now (calls i).disk (calls i).req (serial env calls order w)).2 := by
  simp [serial, List.foldl_append]

/-- A schedule run in two parts. -/
theorem run_append {n : Nat} (env : Env) (calls : Fin n → Call) (a b : List (Fin n)) (s : Sys n) :
    run env calls (a ++ b) s = run env calls b (run env calls a s) := by
  induction a generalizing s with
  | nil => rfl
  | cons i a ih =>
    simp only [List.cons_append, run]
    cases step env calls i s <;> simp [ih]

/-- The invariant of the holder only holds inside the critical section. -/
theorem Holder.crit_eq {env : Env} {c : Call} {p : Pc} {world wb : World}
    (h : Holder env c p world wb) : p.crit = true := by
  cases p <;> simp [Holder] at h <;> rfl

/-- The bookkeeping survives a step between two points before the return. -/
theorem DoneSide.move {n : Nat} {env : Env} {calls : Fin n → Call} {w₀ : World}
    {pc : Fin n → Pc} {order : List (Fin n)} (d : DoneSide env calls w₀ pc order)
    (i : Fin n) (p : Pc) (hi : (pc i).isDone = false) (hp : p.isDone = false)
    (hpass : p = .waiting ∨ p.crit = true →
      (calls i).req.method = "POST" ∧ (calls i).req.bodyErr = false) :
    DoneSide env calls w₀ (fun j => if j = i then p else pc j) order := by
  refine ⟨d.nodup, ?_, ?_, ?_⟩
  · intro j
    by_cases hj : j = i
    · subst hj
      simp only [if_true, hp]
      rw [d.mem j, hi]
    · simp only [hj, if_false]
      exact d.mem j
  · intro j r hr
    by_cases hj : j = i
    · subst hj
      simp only [if_true] at hr
      rw [hr] at hp
      simp [Pc.isDone] at hp
    · simp only [hj, if_false] at hr
      exact d.resp j r hr
  · intro j hjp
    by_cases hj : j = i
    · subst hj
      simp only [if_true] at hjp
      exact hpass hjp
    · simp only [hj, if_false] at hjp
      exact d.passed j hjp

/-- The bookkeeping survives a return, the goroutine joining the order last. -/
theorem DoneSide.finish {n : Nat} {env : Env} {calls : Fin n → Call} {w₀ : World}
    {pc : Fin n → Pc} {order : List (Fin n)} (d : DoneSide env calls w₀ pc order)
    (i : Fin n) (r : Response) (hi : (pc i).isDone = false)
    (hr : r = (createUser env (calls i).now (calls i).disk (calls i).req (serial env calls order w₀)).1) :
    DoneSide env calls w₀ (fun j => if j = i then .done r else pc j) (order ++ [i]) := by
  have hni : i ∉ order := by
    intro hmem
    rw [(d.mem i).mp hmem] at hi
    exact Bool.noConfusion hi
  refine ⟨?_, ?_, ?_, ?_⟩
  · rw [List.nodup_append]
    refine ⟨d.nodup, List.nodup_singleton i, ?_⟩
    intro a ha hb
    rw [List.mem_singleton] at hb
    subst hb
    exact hni ha
  · intro j
    by_cases hj : j = i
    · subst hj
      simp [Pc.isDone]
    · simp only [hj, if_false, List.mem_append, List.mem_singleton, or_false]
      exact d.mem j
  · intro j r' hr'
    by_cases hj : j = i
    · subst hj
      simp only [if_true, Pc.done.injEq] at hr'
      subst hr'
      exact ⟨order, [], rfl, hr⟩
    · simp only [hj, if_false] at hr'
      obtain ⟨pre, post, ho, hr2⟩ := d.resp j r' hr'
      exact ⟨pre, post ++ [i], by simp [ho], hr2⟩
  · intro j hjp
    by_cases hj : j = i
    · subst hj
      simp [Pc.crit] at hjp
    · simp only [hj, if_false] at hjp
      exact d.passed j hjp

/-- The mutex side survives a step taken outside the critical section. -/
theorem LockSide.move_outside {n : Nat} {env : Env} {calls : Fin n → Call} {s : Sys n}
    {wb : World} (l : LockSide env calls s wb) (i : Fin n) (p : Pc)
    (hi : (s.pc i).crit = false) (hp : p.crit = false) :
    LockSide env calls (s.goto i p) wb := by
  rcases l with ⟨hl, hall, hw⟩ | ⟨hl, h, hh, hothers⟩
  · left
    refine ⟨hl, ?_, hw⟩
    intro j
    by_cases hj : j = i
    · simp [Sys.goto, hj, hp]
    · simp [Sys.goto, hj, hall j]
  · right
    have hne : h ≠ i := by
      rintro rfl
      rw [hh.crit_eq] at hi
      exact Bool.noConfusion hi
    refine ⟨hl, h, ?_, ?_⟩
    · simpa [Sys.goto, hne] using hh
    · intro j hjh
      by_cases hj : j = i
      · simp [Sys.goto, hj, hp]
      · simp [Sys.goto, hj, hothers j hjh]

/-- A goroutine inside the critical section is the one holding the mutex. -/
theorem LockSide.holder {n : Nat} {env : Env} {calls : Fin n → Call} {s : Sys n}
    {wb : World} (l : LockSide env calls s wb) (i : Fin n) (hi : (s.pc i).crit = true) :
    s.locked = true ∧ Holder env (calls i) (s.pc i) s.world wb ∧
      ∀ j, j ≠ i → (s.pc j).crit = false := by
  rcases l with ⟨_, hall, _⟩ | ⟨hl, h, hh, hothers⟩
  · rw [hall i] at hi
    exact Bool.noConfusion hi
  · by_cases hih : i = h
    · subst hih
      exact ⟨hl, hh, hothers⟩
    · rw [hothers i hih] at hi
      exact Bool.noConfusion hi

/-- The mutex side survives a step of the holder that stays inside. -/
theorem LockSide.holder_step {n : Nat} {env : Env} {calls : Fin n → Call} {s : Sys n}
    {wb : World} (i : Fin n) (p : Pc) (w' : World)
    (hothers : ∀ j, j ≠ i → (s.pc j).crit = false)
    (hh : Holder env (calls i) p w' wb) :
    LockSide env calls (Sys.goto { s with world := w', locked := true } i p) wb := by
  right
  refine ⟨rfl, i, ?_, ?_⟩
  · simpa [Sys.goto] using hh
  · intro j hj
    simp [Sys.goto, hj, hothers j hj]

/-- The outcome of a call with a wrong method. -/
theorem createUser_fst_of_method {env : Env} {now : Int} {disk : Disk} {r : Request} (w : World)
    (h : r.method ≠ "POST") :
    createUser env now disk r w = (jsonResponse 405 false "Method not allowed" .none, w) := by
  simp [createUser, h]

/-- The outcome of a call with an undecodable body. -/
theorem createUser_fst_of_body {env : Env} {now : Int} {disk : Disk} {r : Request} (w : World)
    (hm : r.method = "POST") (h : r.bodyErr = true) :
    createUser env now disk r w = (jsonResponse 400 false "Invalid request body" .none, w) := by
  simp [createUser, hm, h]

/-- The outcome of a call that cannot read the auth config. -/
theorem createUser_unreadable {env : Env} {now : Int} {disk : Disk} {r : Request} (w : World)
    (hm : r.method = "POST") (hb : r.bodyErr = false) (h : (loadConfig w).2 = true) :
    createUser env now disk r w = (jsonResponse 500 false "Gagal membaca config ZiVPN" .none, w) := by
  simp [createUser, hm, hb, h]

/-- The outcome of an accepted call, in terms of its intermediate states. -/
theorem createUser_accepted_after {env : Env} {c : Call}  (w : World)
    (hm : c.req.method = "POST") (hb : c.req.bodyErr = false) (h : (loadConfig w).2 = false) :
    createUser env c.now c.disk c.req w =
      (jsonResponse 200 true "User ZiVPN berhasil dibuat"
        (.fields [("password", c.req.body.password),
          ("expired", expDate env c.now c.req.body.days)]),
       restartService (afterSaveUsers env c w)) := by
  rw [createUser_accepted env c.now c.disk c.req w hm hb h]
  rfl

/-- A state whose mutex is locked, rebuilt with the mutex locked. -/
theorem Sys.relock {n : Nat} (s : Sys n) (hl : s.locked = true) :
    Sys.mk s.world true s.pc = s := by
  cases s
  simp only at hl
  simp [hl]

/-- Every step preserves the invariant. -/
theorem step_inv {n : Nat} (env : Env) (calls : Fin n → Call) (w₀ : World) (i : Fin n)
    (s s' : Sys n) (hinv : Inv env calls w₀ s) (hstep : step env calls i s = some s') :
    Inv env calls w₀ s' := by
  obtain ⟨order, d, l⟩ := hinv
  unfold step at hstep
  cases hpc : s.pc i with
  | start =>
    have hnd : (s.pc i).isDone = false := by rw [hpc]; rfl
    have hnc : (s.pc i).crit = false := by rw [hpc]; rfl
    simp only [hpc] at hstep
    by_cases hm : (calls i).req.method = "POST"
    · by_cases hb : (calls i).req.bodyErr = true
      · simp only [hm, hb, ne_eq, not_true_eq_false, if_false, if_true, Option.some.injEq] at hstep
        subst hstep
        refine ⟨order ++ [i], d.finish i _ hnd ?_, ?_⟩
        · rw [createUser_fst_of_body _ hm hb]
        · rw [serial_append, createUser_fst_of_body _ hm hb]
          exact l.move_outside i _ hnc rfl
      · have hb' : (calls i).req.bodyErr = false := by simpa using hb
        simp only [hm, hb', ne_eq, not_true_eq_false, if_false, Bool.false_eq_true,
          Option.some.injEq] at hstep
        subst hstep
        refine ⟨order, d.move i _ hnd rfl (fun _ => ⟨hm, hb'⟩), ?_⟩
        exact l.move_outside i _ hnc rfl
    · simp only [hm, ne_eq, not_false_eq_true, if_true, Option.some.injEq] at hstep
      subst hstep
      refine ⟨order ++ [i], d.finish i _ hnd ?_, ?_⟩
      · rw [createUser_fst_of_method _ hm]
      · rw [serial_append, createUser_fst_of_method _ hm]
        exact l.move_outside i _ hnc rfl
  | waiting =>
    have hnd : (s.pc i).isDone = false := by rw [hpc]; rfl
    have hpass := d.passed i (Or.inl hpc)
    simp only [hpc] at hstep
    rcases l with ⟨hl, hall, hw⟩ | ⟨hl, _⟩
    · simp only [hl, Bool.false_eq_true, if_false, Option.some.injEq] at hstep
      subst hstep
      refine ⟨order, d.move i _ hnd rfl (fun _ => hpass), ?_⟩
      have := @LockSide.holder_step n env calls s (serial env calls order w₀)
        i .locked s.world (fun j _ => hall j) (by simpa [Holder] using hw)
      simpa using this
    · simp [hl] at hstep
  | locked =>
    have hnd : (s.pc i).isDone = false := by rw [hpc]; rfl
    have hpass := d.passed i (Or.inr (by rw [hpc]; rfl))
    obtain ⟨hl, hh, hothers⟩ := l.holder i (by rw [hpc]; rfl)
    rw [hpc] at hh
    simp only [Holder] at hh
    simp only [hpc] at hstep
    have hs : s = { s with world := s.world, locked := true } := (Sys.relock s hl).symm
    by_cases herr : (loadConfig s.world).2 = true
    · simp only [herr, if_true, Option.some.injEq] at hstep
      subst hstep
      refine ⟨order, d.move i _ hnd rfl (fun _ => hpass), ?_⟩
      rw [hs]
      apply LockSide.holder_step i _ s.world hothers
      simp only [Holder]
      rw [← hh, createUser_unreadable _ hpass.1 hpass.2 herr]
    · simp only [herr, Bool.false_eq_true, if_false, Option.some.injEq] at hstep
      subst hstep
      refine ⟨order, d.move i _ hnd rfl (fun _ => hpass), ?_⟩
      rw [hs]
      apply LockSide.holder_step i _ s.world hothers
      simp only [Holder]
      refine ⟨hh, ?_⟩
      rw [← hh]
      have : (loadConfig s.world).2 = false := by simpa using herr
      rw [← this]
  | loaded config =>
    have hnd : (s.pc i).isDone = false := by rw [hpc]; rfl
    have hpass := d.passed i (Or.inr (by rw [hpc]; rfl))
    obtain ⟨hl, hh, hothers⟩ := l.holder i (by rw [hpc]; rfl)
    rw [hpc] at hh
    simp only [Holder] at hh
    simp only [hpc, Option.some.injEq] at hstep
    subst hstep
    refine ⟨order, d.move i _ hnd rfl (fun _ => hpass), ?_⟩
    have := @LockSide.holder_step n env calls s
      (serial env calls order w₀) i .savedConfig
      (afterSaveConfig (calls i) (serial env calls order w₀)) hothers
      (by simp [Holder, hh.2])
    simpa [afterSaveConfig, hh.1, hh.2, hl] using this
  | savedConfig =>
    have hnd : (s.pc i).isDone = false := by rw [hpc]; rfl
    have hpass := d.passed i (Or.inr (by rw [hpc]; rfl))
    obtain ⟨hl, hh, hothers⟩ := l.holder i (by rw [hpc]; rfl)
    rw [hpc] at hh
    simp only [Holder] at hh
    simp only [hpc, Option.some.injEq] at hstep
    subst hstep
    refine ⟨order, d.move i _ hnd rfl (fun _ => hpass), ?_⟩
    have := @LockSide.holder_step n env calls s
      (serial env calls order w₀) i
      (.loadedUsers (expDate env (calls i).now (calls i).req.body.days) (loadUsers s.world))
      s.world hothers
      (by simp [Holder, hh.1, hh.2, afterSaveConfig, loadUsers_saveConfig])
    have hs : s = { s with world := s.world, locked := true } := (Sys.relock s hl).symm
    rw [hs]
    exact this
  | loadedUsers exp users =>
    have hnd : (s.pc i).isDone = false := by rw [hpc]; rfl
    have hpass := d.passed i (Or.inr (by rw [hpc]; rfl))
    obtain ⟨hl, hh, hothers⟩ := l.holder i (by rw [hpc]; rfl)
    rw [hpc] at hh
    simp only [Holder] at hh
    simp only [hpc, Option.some.injEq] at hstep
    subst hstep
    refine ⟨order, d.move i _ hnd rfl (fun _ => hpass), ?_⟩
    have := @LockSide.holder_step n env calls s
      (serial env calls order w₀) i (.savedUsers exp)
      (afterSaveUsers env (calls i) (serial env calls order w₀)) hothers
      (by simp [Holder, hh.1, hh.2.2.1])
    simpa [afterSaveUsers, Call.record, hh.2.1, hh.2.2.1, hh.2.2.2, hl] using this
  | savedUsers exp =>
    have hnd : (s.pc i).isDone = false := by rw [hpc]; rfl
    have hpass := d.passed i (Or.inr (by rw [hpc]; rfl))
    obtain ⟨hl, hh, hothers⟩ := l.holder i (by rw [hpc]; rfl)
    rw [hpc] at hh
    simp only [Holder] at hh
    simp only [hpc, Option.some.injEq] at hstep
    subst hstep
    refine ⟨order, d.move i _ hnd rfl (fun _ => hpass), ?_⟩
    have := @LockSide.holder_step n env calls s
      (serial env calls order w₀) i (.restarted exp)
      (restartService (afterSaveUsers env (calls i) (serial env calls order w₀))) hothers
      (by simp [Holder, hh.1, hh.2.2])
    simpa [hh.2.1, hl] using this
  | restarted exp =>
    have hnd : (s.pc i).isDone = false := by rw [hpc]; rfl
    have hpass := d.passed i (Or.inr (by rw [hpc]; rfl))
    obtain ⟨hl, hh, hothers⟩ := l.holder i (by rw [hpc]; rfl)
    rw [hpc] at hh
    simp only [Holder] at hh
    simp only [hpc, Option.some.injEq] at hstep
    subst hstep
    refine ⟨order, d.move i _ hnd rfl (fun _ => hpass), ?_⟩
    have hs : s = { s with world := s.world, locked := true } := (Sys.relock s hl).symm
    rw [hs]
    apply LockSide.holder_step i _ s.world hothers
    simp only [Holder]
    rw [createUser_accepted_after _ hpass.1 hpass.2 hh.1, hh.2.1, hh.2.2]
  | unlocking resp =>
    have hnd : (s.pc i).isDone = false := by rw [hpc]; rfl
    obtain ⟨hl, hh, hothers⟩ := l.holder i (by rw [hpc]; rfl)
    rw [hpc] at hh
    simp only [Holder] at hh
    simp only [hpc, Option.some.injEq] at hstep
    subst hstep
    have h1 : resp = (createUser env (calls i).now (calls i).disk (calls i).req (serial env calls order w₀)).1 := by
      rw [← hh]
    have h2 : s.world = (createUser env (calls i).now (calls i).disk (calls i).req (serial env calls order w₀)).2 := by
      rw [← hh]
    refine ⟨order ++ [i], d.finish i _ hnd h1, ?_⟩
    left
    refine ⟨rfl, ?_, ?_⟩
    · intro j
      by_cases hj : j = i
      · simp [Sys.goto, hj, Pc.crit]
      · simp [Sys.goto, hj, hothers j hj]
    · rw [serial_append]
      exact h2
  | done resp =>
    simp [hpc] at hstep

/-- The invariant holds before any goroutine has run. -/
theorem inv_init {n : Nat} (env : Env) (calls : Fin n → Call) (w₀ : World) :
    Inv env calls w₀ (Sys.init n w₀) := by
  refine ⟨[], ⟨List.nodup_nil, ?_, ?_, ?_⟩, ?_⟩
  · intro i
    simp [Sys.init, Pc.isDone]
  · intro i r hr
    simp [Sys.init] at hr
  · intro i hi
    simp [Sys.init, Pc.crit] at hi
  · left
    exact ⟨rfl, fun _ => rfl, rfl⟩

/-- Every schedule preserves the invariant. -/
theorem inv_run {n : Nat} (env : Env) (calls : Fin n → Call) (w₀ : World) (sched : List (Fin n))
    (s : Sys n) (hinv : Inv env calls w₀ s) : Inv env calls w₀ (run env calls sched s) := by
  induction sched generalizing s with
  | nil => exact hinv
  | cons i rest ih =>
    unfold run
    cases hs : step env calls i s with
    | none => exact ih s hinv
    | some s' => exact ih s' (step_inv env calls w₀ i s s' hinv hs)

/-- Moving one goroutine to a point of smaller rank lowers the measure. -/
theorem measure_goto_lt {n : Nat} (pc : Fin n → Pc) (i : Fin n) (p : Pc)
    (h : p.rank < (pc i).rank) :
    measure (fun j => if j = i then p else pc j) < measure pc := by
  unfold measure
  apply Finset.sum_lt_sum
  · intro j _
    by_cases hj : j = i
    · subst hj
      simp only [if_true]
      exact Nat.le_of_lt h
    · simp [hj]
  · exact ⟨i, Finset.mem_univ i, by simpa using h⟩

/-- Every step lowers the measure. -/
theorem step_measure {n : Nat} (env : Env) (calls : Fin n → Call) (i : Fin n) (s s' : Sys n)
    (hstep : step env calls i s = some s') : measure s'.pc < measure s.pc := by
  unfold step at hstep
  cases hpc : s.pc i with
  | start =>
    simp only [hpc] at hstep
    split at hstep
    · cases hstep
      exact measure_goto_lt s.pc i _ (by rw [hpc]; simp [Pc.rank])
    · split at hstep
      · cases hstep
        exact measure_goto_lt s.pc i _ (by rw [hpc]; simp [Pc.rank])
      · cases hstep
        exact measure_goto_lt s.pc i _ (by rw [hpc]; simp [Pc.rank])
  | waiting =>
    simp only [hpc] at hstep
    split at hstep
    · cases hstep
    · cases hstep
      exact measure_goto_lt s.pc i _ (by rw [hpc]; simp [Pc.rank])
  | locked =>
    simp only [hpc] at hstep
    split at hstep
    · cases hstep
      exact measure_goto_lt s.pc i _ (by rw [hpc]; simp [Pc.rank])
    · cases hstep
      exact measure_goto_lt s.pc i _ (by rw [hpc]; simp [Pc.rank])
  | loaded config =>
    simp only [hpc] at hstep
    cases hstep
    exact measure_goto_lt s.pc i _ (by rw [hpc]; simp [Pc.rank])
  | savedConfig =>
    simp only [hpc] at hstep
    cases hstep
    exact measure_goto_lt s.pc i _ (by rw [hpc]; simp [Pc.rank])
  | loadedUsers exp users =>
    simp only [hpc] at hstep
    cases hstep
    exact measure_goto_lt s.pc i _ (by rw [hpc]; simp [Pc.rank])
  | savedUsers exp =>
    simp only [hpc] at hstep
    cases hstep
    exact measure_goto_lt s.pc i _ (by rw [hpc]; simp [Pc.rank])
  | restarted exp =>
    simp only [hpc] at hstep
    cases hstep
    exact measure_goto_lt s.pc i _ (by rw [hpc]; simp [Pc.rank])
  | unlocking resp =>
    simp only [hpc] at hstep
    cases hstep
    exact measure_goto_lt s.pc i _ (by rw [hpc]; simp [Pc.rank])
  | done resp =>
    simp [hpc] at hstep

/-- A goroutine inside the critical section can always take a step. -/
theorem step_of_crit {n : Nat} (env : Env) (calls : Fin n → Call) (i : Fin n) (s : Sys n)
    (h : (s.pc i).crit = true) : ∃ s', step env calls i s = some s' := by
  unfold step
  cases hpc : s.pc i with
  | start => rw [hpc] at h; exact Bool.noConfusion h
  | waiting => rw [hpc] at h; exact Bool.noConfusion h
  | done resp => rw [hpc] at h; exact Bool.noConfusion h
  | locked =>
    simp only
    split <;> exact ⟨_, rfl⟩
  | loaded config => exact ⟨_, rfl⟩
  | savedConfig => exact ⟨_, rfl⟩
  | loadedUsers exp users => exact ⟨_, rfl⟩
  | savedUsers exp => exact ⟨_, rfl⟩
  | restarted exp => exact ⟨_, rfl⟩
  | unlocking resp => exact ⟨_, rfl⟩

/-- Unless every handler has returned, some goroutine can take a step. -/
theorem progress {n : Nat} (env : Env) (calls : Fin n → Call) (w₀ : World) (s : Sys n)
    (hinv : Inv env calls w₀ s) (hnot : ¬ s.allDone) : ∃ i s', step env calls i s = some s' := by
  obtain ⟨order, _, l⟩ := hinv
  rcases l with ⟨hl, hall, _⟩ | ⟨_, h, hh, _⟩
  · unfold Sys.allDone at hnot
    push_neg at hnot
    obtain ⟨i, hi⟩ := hnot
    refine ⟨i, ?_⟩
    have hc := hall i
    unfold step
    cases hpc : s.pc i with
    | start =>
      simp only
      split
      · exact ⟨_, rfl⟩
      · split <;> exact ⟨_, rfl⟩
    | waiting =>
      simp only [hl]
      exact ⟨_, rfl⟩
    | done resp => rw [hpc] at hi; simp [Pc.isDone] at hi
    | locked => rw [hpc] at hc; exact Bool.noConfusion hc
    | loaded config => rw [hpc] at hc; exact Bool.noConfusion hc
    | savedConfig => rw [hpc] at hc; exact Bool.noConfusion hc
    | loadedUsers exp users => rw [hpc] at hc; exact Bool.noConfusion hc
    | savedUsers exp => rw [hpc] at hc; exact Bool.noConfusion hc
    | restarted exp => rw [hpc] at hc; exact Bool.noConfusion hc
    | unlocking resp => rw [hpc] at hc; exact Bool.noConfusion hc
  · exact ⟨h, step_of_crit env calls h s hh.crit_eq⟩

/-- From a state satisfying the invariant some schedule brings every handler to its return. -/
theorem completion {n : Nat} (env : Env) (calls : Fin n → Call) (w₀ : World) (m : Nat) :
    ∀ s : Sys n, Inv env calls w₀ s → measure s.pc ≤ m →
      ∃ more, (run env calls more s).allDone := by
  induction m with
  | zero =>
    intro s hinv hm
    by_cases hd : s.allDone
    · exact ⟨[], hd⟩
    · obtain ⟨i, s', hs⟩ := progress env calls w₀ s hinv hd
      have := step_measure env calls i s s' hs
      omega
  | succ m ih =>
    intro s hinv hm
    by_cases hd : s.allDone
    · exact ⟨[], hd⟩
    · obtain ⟨i, s', hs⟩ := progress env calls w₀ s hinv hd
      have hlt := step_measure env calls i s s' hs
      obtain ⟨more, hmore⟩ := ih s' (step_inv env calls w₀ i s s' hinv hs) (by omega)
      refine ⟨i :: more, ?_⟩
      simp only [run, hs]
      exact hmore

/-- Once every handler has returned, the state and the responses are those of a sequential run. -/
theorem serializable {n : Nat} (env : Env) (calls : Fin n → Call) (w₀ : World) (s : Sys n)
    (hinv : Inv env calls w₀ s) (hd : s.allDone) :
    ∃ order : List (Fin n), order.Perm (List.finRange n) ∧
      s.world = serial env calls order w₀ ∧
      ∀ i, ∃ pre post, order = pre ++ i :: post ∧
        s.pc i = .done (createUser env (calls i).now (calls i).disk (calls i).req (serial env calls pre w₀)).1 := by
  obtain ⟨order, d, l⟩ := hinv
  refine ⟨order, ?_, ?_, ?_⟩
  · rw [List.perm_ext_iff_of_nodup d.nodup (List.nodup_finRange n)]
    intro i
    simp only [List.mem_finRange, iff_true]
    exact (d.mem i).mpr (hd i)
  · rcases l with ⟨_, _, hw⟩ | ⟨_, h, hh, _⟩
    · exact hw
    · have h1 := hh.crit_eq
      have h2 := hd h
      cases hpc : s.pc h <;> rw [hpc] at h1 h2 <;> simp [Pc.crit, Pc.isDone] at h1 h2
  · intro i
    have h2 := hd i
    cases hpc : s.pc i with
    | done r =>
      obtain ⟨pre, post, ho, hr⟩ := d.resp i r hpc
      exact ⟨pre, post, ho, by rw [hr]⟩
    | _ => rw [hpc] at h2; simp [Pc.isDone] at h2

/-- A sequential run of accepted calls whose writes succeed, on a readable
config, appends their passwords and records in order. -/
theorem serial_accepted {n : Nat} (env : Env) (calls : Fin n → Call) (order : List (Fin n)) :
    ∀ (w : World) (c : Config), w.configFile = .valid c →
      (∀ i ∈ order, (calls i).req.method = "POST" ∧ (calls i).req.bodyErr = false) →
      (∀ i ∈ order, (calls i).disk = allOk) →
      (serial env calls order w).configFile =
        .valid ⟨c.listen, c.cert, c.key, c.obfs,
          ⟨c.auth.mode, c.auth.config ++ order.map (fun i => (calls i).req.body.password)⟩⟩ ∧
      loadUsers (serial env calls order w) =
        loadUsers w ++ order.map (fun i => (calls i).record env) := by
  induction order with
  | nil =>
    intro w c hc _ _
    simp [serial, hc]
  | cons i rest ih =>
    intro w c hc hreq hok
    have hi := hreq i (List.mem_cons_self _ _)
    have hoki := hok i (List.mem_cons_self _ _)
    have hl : loadConfig w = (c, false) := by simp [loadConfig, hc]
    have hl2 : (loadConfig w).2 = false := by rw [hl]
    have hstep : serial env calls (i :: rest) w =
        serial env calls rest (restartService (afterSaveUsers env (calls i) w)) := by
      simp only [serial, List.foldl_cons]
      rw [createUser_accepted_after w hi.1 hi.2 hl2]
    have hc' : (restartService (afterSaveUsers env (calls i) w)).configFile =
        .valid ⟨c.listen, c.cert, c.key, c.obfs,
          ⟨c.auth.mode, c.auth.config ++ [(calls i).req.body.password]⟩⟩ := by
      simp [restartService, afterSaveUsers, afterSaveConfig, saveUsers, saveConfig, hl, hoki, allOk]
    have hu' : loadUsers (restartService (afterSaveUsers env (calls i) w)) =
        loadUsers w ++ [(calls i).record env] := by
      simp [restartService, afterSaveUsers, saveUsers, loadUsers, hoki, allOk]
    obtain ⟨h1, h2⟩ := ih _ _ hc' (fun j hj => hreq j (List.mem_cons_of_mem _ hj))
      (fun j hj => hok j (List.mem_cons_of_mem _ hj))
    rw [hstep, h1, h2, hu']
    simp

/-- The renewed expiration of a record not yet expired by the UTC date of now. -/
theorem renewedExp_before (env : Env) (T d : Int) (expired : String) (dayE : Int)
    (hE : parseDay expired = some dayE) (h₁ : -106751 ≤ d) (h₂ : d ≤ 106751)
    (hU : Time.day env ⟨T, .utc⟩ < dayE) :
    renewedExp env T T d expired = formatDay (dayE + d) := by
  rw [renewedExp_of_range env T T d expired dayE hE h₁ h₂]
  have hlt : ¬ dayE * 86400 * 1000000000 < T := by
    simp only [Time.day] at hU
    omega
  simp [hlt]

/-- At or east of UTC the UTC date is not after the local date. -/
theorem utcDay_le_localDay (env : Env) (T : Int) (hz : 0 ≤ env.zone (T / 1000000000)) :
    Time.day env ⟨T, .utc⟩ ≤ Time.day env (nowAt T) := by
  simp only [Time.day, nowAt]
  omega

/-- The renewed expiration of a record expired by local date, when the instant
`d × 24h` later falls `d` days after the local date of now. -/
theorem renewedExp_after (env : Env) (T d : Int) (expired : String) (dayE : Int)
    (hE : parseDay expired = some dayE) (h₁ : -106751 ≤ d) (h₂ : d ≤ 106751)
    (hD : dayE ≤ Time.day env (nowAt T)) (hz : env.zone (T / 1000000000) < 86400)
    (hday : Time.day env (nowAt (T + d * 86400000000000)) = Time.day env (nowAt T) + d) :
    renewedExp env T T d expired = formatDay (Time.day env (nowAt T) + d) := by
  rw [renewedExp_of_range env T T d expired dayE hE h₁ h₂]
  by_cases hlt : dayE * 86400 * 1000000000 < T
  · simp [hlt, hday]
  · have hEq : Time.day env (nowAt T) = dayE := by
      simp only [Time.day, nowAt] at hD ⊢
      omega
    simp [hlt, hEq]

/-- The outcome of `renewUser` when a record matches. -/
theorem renewUser_first_match (env : Env) (now₁ now₂ : Int) (ok : Bool) (r : Request) (w : World)
    (pre post : List UserStore) (u : UserStore) (hw : loadUsers w = pre ++ u :: post)
    (hpre : ∀ v ∈ pre, v.password ≠ r.body.password) (hu : u.password = r.body.password) :
    (renewUser env now₁ now₂ ok r w).1 =
      ⟨200, true, "User berhasil diperpanjang",
        .fields [("expired", renewedExp env now₁ now₂ r.body.days u.expired)]⟩ ∧
    (ok = true → loadUsers (renewUser env now₁ now₂ ok r w).2 =
      pre ++ ⟨u.password, renewedExp env now₁ now₂ r.body.days u.expired, u.status⟩ :: post) := by
  have hl := renewLoop_first_match env now₁ now₂ r.body.password r.body.days pre post u hpre hu
  constructor
  · simp only [renewUser, hw, hl, jsonResponse]
  · intro hok
    subst hok
    show (renewLoop env now₁ now₂ r.body.password r.body.days (loadUsers w)).1 = _
    rw [hw, hl]

/-! ## Claims -/

/-- C1, refuted as stated: from two empty stores, one `createUser` call whose
registry write fails is answered 200 and leaves `abc123` in the auth config list
only, so the two stores no longer hold the same set of passwords. -/
theorem set_parity_counterexample :
    Parity emptyWorld ∧
    (createUser utcEnv jan1 ⟨true, false⟩ sampleCreate emptyWorld).1.status = 200 ∧
    authPasswords (runOps [.create utcEnv jan1 ⟨true, false⟩ sampleCreate] emptyWorld) =
      ["abc123"] ∧
    registryPasswords (runOps [.create utcEnv jan1 ⟨true, false⟩ sampleCreate] emptyWorld) = [] ∧
    ¬ Parity (runOps [.create utcEnv jan1 ⟨true, false⟩ sampleCreate] emptyWorld) := by
  have ha : authPasswords (runOps [.create utcEnv jan1 ⟨true, false⟩ sampleCreate] emptyWorld) =
      ["abc123"] := by decide
  have hr : registryPasswords
      (runOps [.create utcEnv jan1 ⟨true, false⟩ sampleCreate] emptyWorld) = [] := by decide
  refine ⟨fun p => by simp [authPasswords, registryPasswords, loadConfig, loadUsers, emptyWorld,
    zeroConfig], by decide, ha, hr, ?_⟩
  intro h
  have := (h "abc123").mp (by rw [ha]; simp)
  rw [hr] at this
  simp at this

/-- C1, amended: set parity is an invariant as long as the two writes of each
call have the same fate. From any state in which the passwords of the auth
config list and the passwords of the user registry form the same set, every
finite sequence of `createUser` and `deleteUser` calls, whatever the requests
and clock readings, in which no call has one of its two writes succeed and the
other fail, ends in a state with the same property. -/
theorem set_parity_invariant (ops : List Op) (w : World)
    (hd : ∀ o ∈ ops, o.disk.configOk = o.disk.usersOk) (h : Parity w) :
    Parity (runOps ops w) := by
  induction ops generalizing w with
  | nil => exact h
  | cons o ops ih =>
    refine ih _ (fun o' ho' => hd o' (List.mem_cons_of_mem _ ho')) ?_
    have ho := hd o (List.mem_cons_self _ _)
    cases o with
    | create env now disk r => exact parity_createUser env now disk r w ho h
    | delete disk r => exact parity_deleteUser disk r w ho h

/-- Witness of C1: parity holds of two empty stores and still holds after two
creations of the same password, the deletion of an unknown one, a creation
whose two writes both fail, and the deletion of the created password. -/
theorem set_parity_invariant_witness :
    Parity emptyWorld ∧
    Parity (runOps [.create utcEnv jan1 allOk sampleCreate, .create utcEnv jan1 allOk sampleCreate,
      .delete allOk (sampleDelete "ghost"), .create utcEnv jan15 ⟨false, false⟩ (createFor 7),
      .delete allOk (sampleDelete "abc123")] emptyWorld) :=
  ⟨fun p => by simp [authPasswords, registryPasswords, loadConfig, loadUsers, emptyWorld, zeroConfig],
   set_parity_invariant _ emptyWorld (by decide)
    (fun p => by simp [authPasswords, registryPasswords, loadConfig, loadUsers, emptyWorld, zeroConfig])⟩

/-- C4, refuted as stated: deleting `a` from readable stores holding `a`, `b`,
`a`, with a registry write that fails, is answered 200 with `success = true`
while the registry still holds both records of `a`. -/
theorem deleteUser_filter_counterexample :
    (deleteUser ⟨true, false⟩ (sampleDelete "a") sampleWorld).1 =
      ⟨200, true, "User berhasil dihapus", .none⟩ ∧
    authPasswords (deleteUser ⟨true, false⟩ (sampleDelete "a") sampleWorld).2 = ["b"] ∧
    loadUsers (deleteUser ⟨true, false⟩ (sampleDelete "a") sampleWorld).2 =
      [⟨"a", "2024-01-31", "active"⟩, ⟨"b", "2024-02-01", "active"⟩, ⟨"a", "2024-03-01", "active"⟩] ∧
    loadUsers (deleteUser ⟨true, false⟩ (sampleDelete "a") sampleWorld).2 ≠
      (loadUsers sampleWorld).filter (fun u => u.password != "a") := by
  refine ⟨by decide, by decide, by decide, by decide⟩

/-- C4, amended: `deleteUser` filters each store whose write succeeds and always
reports success. With a readable auth config `c` and any registry, after
`deleteUser` for password `p`: when the auth config write succeeds the auth
config file holds `c` with exactly the entries equal to `p` removed from its
list; when the registry write succeeds the registry file holds the previous
records without those whose password is `p`; both in their original order; and
the response is 200 with `success = true` whatever the writes do. When `p`
occurs in neither store, the auth config file is unchanged, the registry holds
the same records, and a registry file that was valid is unchanged. -/
theorem deleteUser_filter_semantics (disk : Disk) (r : Request) (w : World) (c : Config)
    (hc : w.configFile = .valid c) :
    (disk.configOk = true →
      (deleteUser disk r w).2.configFile =
        .valid { c with auth := { c.auth with
          config := c.auth.config.filter (fun q => q != r.body.password) } }) ∧
    (disk.usersOk = true →
      (deleteUser disk r w).2.userDB =
        .valid ((loadUsers w).filter (fun u => u.password != r.body.password))) ∧
    (deleteUser disk r w).1.status = 200 ∧ (deleteUser disk r w).1.success = true ∧
    (r.body.password ∉ c.auth.config → r.body.password ∉ registryPasswords w →
      (deleteUser disk r w).2.configFile = w.configFile ∧
      loadUsers (deleteUser disk r w).2 = loadUsers w ∧
      ∀ us, w.userDB = .valid us → (deleteUser disk r w).2.userDB = w.userDB) := by
  have hl : loadConfig w = (c, false) := by simp [loadConfig, hc]
  rw [deleteUser_eq, hl]
  obtain ⟨co, uo⟩ := disk
  refine ⟨?_, ?_, rfl, rfl, ?_⟩
  · intro hco
    simp only at hco
    subst hco
    cases uo <;> rfl
  · intro huo
    simp only at huo
    subst huo
    cases co <;> rfl
  intro h₁ h₂
  have f₁ : c.auth.config.filter (fun q => q != r.body.password) = c.auth.config := by
    rw [List.filter_eq_self]
    intro q hq
    simp only [bne_iff_ne, ne_eq]
    rintro rfl
    exact h₁ hq
  have f₂ : (loadUsers w).filter (fun u => u.password != r.body.password) = loadUsers w := by
    rw [List.filter_eq_self]
    intro u hu
    simp only [bne_iff_ne, ne_eq]
    intro he
    exact h₂ (by simpa [registryPasswords] using ⟨u, hu, he⟩)
  simp only [f₁, f₂]
  refine ⟨?_, ?_, ?_⟩
  · cases co <;> cases uo <;> simp [restartService, saveUsers, saveConfig, hc]
  · cases co <;> cases uo <;> simp [restartService, saveUsers, saveConfig, loadUsers]
  · intro us hus
    cases co <;> cases uo <;> simp [restartService, saveUsers, saveConfig, loadUsers, hus]

/-- Witness of C4: with both writes succeeding, deleting `a` from stores holding
`a`, `b`, `a` leaves the record of `b`; deleting `ghost`, which occurs in neither
store, leaves both files as they were. -/
theorem deleteUser_filter_semantics_witness :
    (deleteUser allOk (sampleDelete "a") sampleWorld).2.userDB =
      .valid [⟨"b", "2024-02-01", "active"⟩] ∧
    (deleteUser allOk (sampleDelete "ghost") sampleWorld).2.configFile = sampleWorld.configFile ∧
    (deleteUser allOk (sampleDelete "ghost") sampleWorld).2.userDB = sampleWorld.userDB :=
  ⟨((deleteUser_filter_semantics allOk (sampleDelete "a") sampleWorld _ rfl).2.1 rfl).trans
      (by decide),
   ((deleteUser_filter_semantics allOk (sampleDelete "ghost") sampleWorld _ rfl).2.2.2.2
      (by decide) (by decide)).1,
   ((deleteUser_filter_semantics allOk (sampleDelete "ghost") sampleWorld _ rfl).2.2.2.2
      (by decide) (by decide)).2.2 _ rfl⟩

/-- C9: the handler-local failures of `createUser` change nothing. A request
whose method is not `POST` is answered 405 with `success = false`, a `POST`
request whose body does not decode is answered 400 with `success = false`, and
in both cases the state is the one before the call: no file written, no
restart issued. -/
theorem createUser_local_failures (env : Env) (now : Int) (disk : Disk) (r : Request)
    (w : World) :
    (r.method ≠ "POST" →
      (createUser env now disk r w).1.status = 405 ∧
      (createUser env now disk r w).1.success = false ∧
      (createUser env now disk r w).2 = w) ∧
    (r.method = "POST" → r.bodyErr = true →
      (createUser env now disk r w).1.status = 400 ∧
      (createUser env now disk r w).1.success = false ∧
      (createUser env now disk r w).2 = w) := by
  constructor
  · intro hm
    simp [createUser, hm, jsonResponse]
  · intro hm hb
    simp [createUser, hm, hb, jsonResponse]

/-- Witness of C9: a `GET` request and a `POST` request with an undecodable body,
on the sample stores. -/
theorem createUser_local_failures_witness :
    ((createUser utcEnv jan1 allOk ⟨"GET", "/api/user/create", some defaultToken, zeroRequest, false⟩
        sampleWorld).1.status = 405 ∧
      (createUser utcEnv jan1 allOk ⟨"GET", "/api/user/create", some defaultToken, zeroRequest, false⟩
        sampleWorld).2 = sampleWorld) ∧
    ((createUser utcEnv jan1 allOk ⟨"POST", "/api/user/create", some defaultToken, zeroRequest, true⟩
        sampleWorld).1.status = 400 ∧
      (createUser utcEnv jan1 allOk ⟨"POST", "/api/user/create", some defaultToken, zeroRequest, true⟩
        sampleWorld).2 = sampleWorld) :=
  ⟨⟨((createUser_local_failures utcEnv jan1 allOk
      ⟨"GET", "/api/user/create", some defaultToken, zeroRequest, false⟩ sampleWorld).1 (by decide)).1,
    ((createUser_local_failures utcEnv jan1 allOk
      ⟨"GET", "/api/user/create", some defaultToken, zeroRequest, false⟩ sampleWorld).1 (by decide)).2.2⟩,
   ⟨((createUser_local_failures utcEnv jan1 allOk
      ⟨"POST", "/api/user/create", some defaultToken, zeroRequest, true⟩ sampleWorld).2 rfl rfl).1,
    ((createUser_local_failures utcEnv jan1 allOk
      ⟨"POST", "/api/user/create", some defaultToken, zeroRequest, true⟩ sampleWorld).2 rfl rfl).2.2⟩⟩

/-- C2, at the failing input: with the auth config file missing, `deleteUser`
answers 200 with `success = true`, writes the zero-valued config in place of the
unreadable one, rewrites the registry and restarts the service. -/
theorem deleteUser_missing_config_saves_default :
    deleteUser allOk (sampleDelete "x") ⟨.missing, .valid [⟨"a", "2024-01-31", "active"⟩], []⟩ =
      (⟨200, true, "User berhasil dihapus", .none⟩,
       ⟨.valid zeroConfig, .valid [⟨"a", "2024-01-31", "active"⟩],
        [.wroteConfig zeroConfig, .wroteUsers [⟨"a", "2024-01-31", "active"⟩], .restarted]⟩) := by
  decide

/-- C7: the frame of `renewUser`. For every request and pair of stores, and
whether the registry write succeeds or fails, the auth config file is left as
it was, the registry keeps its length, and the passwords and statuses of its
records in order; a record is unchanged when its password is not the requested
one or when an earlier record has the requested password. When no record has
the requested password the registry holds the same records, a registry file
that was valid is unchanged, and the response is 200, `success = true`, with
an empty `expired` value. -/
theorem renewUser_frame (env : Env) (now₁ now₂ : Int) (ok : Bool) (r : Request) (w : World) :
    (renewUser env now₁ now₂ ok r w).2.configFile = w.configFile ∧
    (loadUsers (renewUser env now₁ now₂ ok r w).2).length = (loadUsers w).length ∧
    (loadUsers (renewUser env now₁ now₂ ok r w).2).map (fun u => u.password) =
      (loadUsers w).map (fun u => u.password) ∧
    (loadUsers (renewUser env now₁ now₂ ok r w).2).map (fun u => u.status) =
      (loadUsers w).map (fun u => u.status) ∧
    (∀ i : Nat,
      (((loadUsers w)[i]?).map (fun u => u.password) ≠ some r.body.password ∨
        ∃ j, j < i ∧ ((loadUsers w)[j]?).map (fun u => u.password) = some r.body.password) →
      (loadUsers (renewUser env now₁ now₂ ok r w).2)[i]? = (loadUsers w)[i]?) ∧
    ((∀ u ∈ loadUsers w, u.password ≠ r.body.password) →
      loadUsers (renewUser env now₁ now₂ ok r w).2 = loadUsers w ∧
      (∀ us, w.userDB = .valid us → (renewUser env now₁ now₂ ok r w).2.userDB = w.userDB) ∧
      (renewUser env now₁ now₂ ok r w).1 =
        ⟨200, true, "User berhasil diperpanjang", .fields [("expired", "")]⟩) := by
  cases ok with
  | false =>
    have hw : (renewUser env now₁ now₂ false r w).2 = w := rfl
    rw [hw]
    refine ⟨rfl, rfl, rfl, rfl, fun _ _ => rfl, ?_⟩
    intro hno
    have hl := renewLoop_no_match env now₁ now₂ r.body.password r.body.days (loadUsers w) hno
    refine ⟨rfl, fun _ _ => rfl, ?_⟩
    simp [renewUser, hl, jsonResponse]
  | true =>
    have hv : loadUsers (renewUser env now₁ now₂ true r w).2 =
        (renewLoop env now₁ now₂ r.body.password r.body.days (loadUsers w)).1 := rfl
    rw [hv]
    refine ⟨rfl, renewLoop_length _ _ _ _ _ _, renewLoop_password _ _ _ _ _ _,
      renewLoop_status _ _ _ _ _ _, fun i hi => renewLoop_frame _ _ _ _ _ _ i hi, ?_⟩
    intro hno
    have hl := renewLoop_no_match env now₁ now₂ r.body.password r.body.days (loadUsers w) hno
    refine ⟨by rw [hl], ?_, ?_⟩
    · intro us hus
      have hload : loadUsers w = us := by simp [loadUsers, hus]
      rw [hload] at hl
      simp [renewUser, hl, saveUsers, hus, hload]
    · simp [renewUser, hl, jsonResponse]

/-- Witness of C7: renewing `a` on the sample stores leaves the third record,
which also has password `a`, as it was; renewing an unknown password leaves the
registry as it was. -/
theorem renewUser_frame_witness :
    (loadUsers (renewUser utcEnv jan15 jan15 true (sampleRenew "a" 10) sampleWorld).2)[2]? =
      some ⟨"a", "2024-03-01", "active"⟩ ∧
    loadUsers (renewUser utcEnv jan15 jan15 true (sampleRenew "ghost" 10) sampleWorld).2 =
      loadUsers sampleWorld :=
  ⟨(renewUser_frame utcEnv jan15 jan15 true (sampleRenew "a" 10) sampleWorld).2.2.2.2.1 2
      (Or.inr ⟨0, by decide, by decide⟩),
   ((renewUser_frame utcEnv jan15 jan15 true (sampleRenew "ghost" 10) sampleWorld).2.2.2.2.2
      (by decide)).1⟩

/-- C3, refuted as stated, at four inputs. A renewal of 106752 days issued on
2024-01-15 for a record expiring on 2024-01-31 returns 1731-10-22, not
2316-05-12. Five hours west of UTC, a renewal of one day issued at 19:00:01 on
2024-01-30, which is 2024-01-31 in UTC, for a record expiring on 2024-01-31
returns 2024-01-31, not 2024-02-01. Across the end of summer time, a renewal of one day issued at 00:30
on 2024-10-27 for a record expired on 2024-10-01 returns 2024-10-27, not
2024-10-28. And when the registry write fails, a renewal of 10 days returns
2024-02-10 while the record keeps 2024-01-31. -/
theorem renewUser_monotone_counterexample :
    (parseDay "2024-01-31" = some 19753 ∧ Time.day utcEnv (nowAt jan15) = 19737 ∧
      (renewUser utcEnv jan15 jan15 true (sampleRenew "abc123" 106752) (oneUser "2024-01-31")).1.data =
        .fields [("expired", "1731-10-22")] ∧
      formatDay (19753 + 106752) = "2316-05-12") ∧
    (Time.day westEnv (nowAt jan31Utc) = 19752 ∧ Time.day westEnv ⟨jan31Utc, .utc⟩ = 19753 ∧
      (renewUser westEnv jan31Utc jan31Utc true (sampleRenew "abc123" 1) (oneUser "2024-01-31")).1.data =
        .fields [("expired", "2024-01-31")] ∧
      formatDay (19753 + 1) = "2024-02-01") ∧
    (parseDay "2024-10-01" = some 19997 ∧ Time.day summerEnv (nowAt oct27) = 20023 ∧
      (renewUser summerEnv oct27 oct27 true (sampleRenew "abc123" 1) (oneUser "2024-10-01")).1.data =
        .fields [("expired", "2024-10-27")] ∧
      formatDay (20023 + 1) = "2024-10-28") ∧
    ((renewUser utcEnv jan15 jan15 false (sampleRenew "abc123" 10) (oneUser "2024-01-31")).1.data =
        .fields [("expired", "2024-02-10")] ∧
      loadUsers (renewUser utcEnv jan15 jan15 false (sampleRenew "abc123" 10)
        (oneUser "2024-01-31")).2 = [⟨"abc123", "2024-01-31", "active"⟩]) := by
  refine ⟨⟨by decide, by decide, by decide!, by decide⟩, ⟨by decide, by decide, by decide!, by decide⟩,
    ⟨by decide, by decide, by decide!, by decide⟩, ⟨by decide!, by decide⟩⟩

/-- C3, amended: renew monotonicity by date. Let the first record with the
requested password have an expiration that parses to the date `dayE`, let
`-106751 ≤ days ≤ 106751`, and let the renewal be issued at time `T`, both
readings of the clock being `T`. If the date of `T` is before `dayE`, in local
time and in UTC alike (at or east of UTC the second follows from the first),
the returned `expired` value is the date `days` days after `dayE`. If the local
date of `T` is `dayE` or later, the UTC offset at `T` being less than a day and
the instant `days × 24h` after `T` falling `days` days after the local date of
`T`, the returned `expired` value is the date `days` days after the local date
of `T`. In both cases the value has the layout `2006-01-02`, and when the
registry write succeeds it is the new expiration of that record, every other
record being as it was. -/
theorem renewUser_monotone (env : Env) (T : Int) (ok : Bool) (r : Request) (w : World)
    (pre post : List UserStore) (u : UserStore) (dayE : Int)
    (hw : loadUsers w = pre ++ u :: post)
    (hpre : ∀ v ∈ pre, v.password ≠ r.body.password) (hu : u.password = r.body.password)
    (hE : parseDay u.expired = some dayE)
    (h₁ : -106751 ≤ r.body.days) (h₂ : r.body.days ≤ 106751) :
    (Time.day env (nowAt T) < dayE → Time.day env ⟨T, .utc⟩ < dayE →
      (renewUser env T T ok r w).1 =
        ⟨200, true, "User berhasil diperpanjang",
          .fields [("expired", formatDay (dayE + r.body.days))]⟩ ∧
      (ok = true → loadUsers (renewUser env T T ok r w).2 =
        pre ++ ⟨u.password, formatDay (dayE + r.body.days), u.status⟩ :: post)) ∧
    (dayE ≤ Time.day env (nowAt T) → env.zone (T / 1000000000) < 86400 →
      Time.day env (nowAt (T + r.body.days * 86400000000000)) =
        Time.day env (nowAt T) + r.body.days →
      (renewUser env T T ok r w).1 =
        ⟨200, true, "User berhasil diperpanjang",
          .fields [("expired", formatDay (Time.day env (nowAt T) + r.body.days))]⟩ ∧
      (ok = true → loadUsers (renewUser env T T ok r w).2 =
        pre ++ ⟨u.password, formatDay (Time.day env (nowAt T) + r.body.days), u.status⟩ :: post)) ∧
    (0 ≤ env.zone (T / 1000000000) → Time.day env ⟨T, .utc⟩ ≤ Time.day env (nowAt T)) := by
  have hm := renewUser_first_match env T T ok r w pre post u hw hpre hu
  refine ⟨?_, ?_, utcDay_le_localDay env T⟩
  · intro _ hU
    rw [renewedExp_before env T r.body.days u.expired dayE hE h₁ h₂ hU] at hm
    exact hm
  · intro hD hz hday
    rw [renewedExp_after env T r.body.days u.expired dayE hE h₁ h₂ hD hz hday] at hm
    exact hm

/-- Witness of C3: the two scenarios, in the UTC zone. Expiration 2024-01-31
renewed for 10 days on 2024-01-15 gives 2024-02-10 in the registry; expiration
2024-01-01 renewed for 10 days on 2024-02-01 returns 2024-02-11. -/
theorem renewUser_monotone_witness :
    loadUsers (renewUser utcEnv jan15 jan15 true (sampleRenew "abc123" 10) (oneUser "2024-01-31")).2 =
      [⟨"abc123", "2024-02-10", "active"⟩] ∧
    (renewUser utcEnv feb1 feb1 true (sampleRenew "abc123" 10) (oneUser "2024-01-01")).1 =
      ⟨200, true, "User berhasil diperpanjang", .fields [("expired", "2024-02-11")]⟩ :=
  ⟨(((renewUser_monotone utcEnv jan15 true (sampleRenew "abc123" 10) (oneUser "2024-01-31")
      [] [] ⟨"abc123", "2024-01-31", "active"⟩ 19753 rfl (by simp) rfl (by decide)
      (by decide) (by decide)).1 (by decide) (by decide)).2 rfl).trans (by decide),
   (((renewUser_monotone utcEnv feb1 true (sampleRenew "abc123" 10) (oneUser "2024-01-01")
      [] [] ⟨"abc123", "2024-01-01", "active"⟩ 19723 rfl (by simp) rfl (by decide)
      (by decide) (by decide)).2.1 (by decide) (by decide) (by decide)).1).trans (by decide)⟩

/-- C5, refuted as stated, at two inputs. A decodable `POST` for 106752 days on
2024-01-01, with a readable auth config, appends a record expiring on
1731-09-22, while the date 106752 days after 2024-01-01 is 2316-04-12. And a
decodable `POST` for 30 days whose registry write fails is answered 200 with
`expired` 2024-01-31 while the registry gains no record. -/
theorem createUser_postcondition_counterexample :
    ((createUser utcEnv jan1 allOk (createFor 106752) emptyWorld).2.userDB =
        .valid [⟨"abc123", "1731-09-22", "active"⟩] ∧
      Time.day utcEnv (nowAt jan1) = 19723 ∧ formatDay (19723 + 106752) = "2316-04-12") ∧
    ((createUser utcEnv jan1 ⟨true, false⟩ (createFor 30) emptyWorld).1 =
        ⟨200, true, "User ZiVPN berhasil dibuat",
          .fields [("password", "abc123"), ("expired", "2024-01-31")]⟩ ∧
      (createUser utcEnv jan1 ⟨true, false⟩ (createFor 30) emptyWorld).2.userDB = .valid [] ∧
      authPasswords (createUser utcEnv jan1 ⟨true, false⟩ (createFor 30) emptyWorld).2 =
        ["abc123"]) := by
  refine ⟨⟨by decide!, by decide, by decide⟩, ⟨by decide!, by decide!, by decide!⟩⟩

/-- C5, amended: the postcondition of `createUser`, store by store. For every
`POST` request with a decodable body, whatever `days` is, and a readable auth
config `c`: when the auth config write succeeds the auth config file holds `c`
with the password appended once at the end of its list, every other field as
it was; when the registry write succeeds the registry holds the previous
records followed by one record with the password, the expiration computed and
status `active`; the response is 200, `success = true`, with the password and
that same expiration; when both writes succeed the effects are one write of
each file and one restart; and the outcome does not depend on `ip_limit`. The
expiration computed is the local date of the instant `time.Duration(days) * 24
* time.Hour` after now, a duration that is `days × 24h` for
`-106751 ≤ days ≤ 106751`. -/
theorem createUser_postcondition (env : Env) (now : Int) (disk : Disk) (r : Request) (w : World)
    (c : Config) (hm : r.method = "POST") (hb : r.bodyErr = false)
    (hc : w.configFile = .valid c) :
    (disk.configOk = true →
      (createUser env now disk r w).2.configFile =
        .valid ⟨c.listen, c.cert, c.key, c.obfs,
          ⟨c.auth.mode, c.auth.config ++ [r.body.password]⟩⟩) ∧
    (disk.usersOk = true →
      (createUser env now disk r w).2.userDB =
        .valid (loadUsers w ++ [⟨r.body.password, expDate env now r.body.days, "active"⟩])) ∧
    (createUser env now disk r w).1 =
      ⟨200, true, "User ZiVPN berhasil dibuat",
        .fields [("password", r.body.password), ("expired", expDate env now r.body.days)]⟩ ∧
    (disk = allOk →
      (createUser env now disk r w).2.log = w.log ++
        [.wroteConfig ⟨c.listen, c.cert, c.key, c.obfs,
          ⟨c.auth.mode, c.auth.config ++ [r.body.password]⟩⟩,
         .wroteUsers (loadUsers w ++ [⟨r.body.password, expDate env now r.body.days, "active"⟩]),
         .restarted]) ∧
    (∀ k : Int, createUser env now disk { r with body := { r.body with ipLimit := k } } w =
      createUser env now disk r w) ∧
    expDate env now r.body.days =
      formatDay (Time.day env (nowAt (now + duration r.body.days))) ∧
    (-106751 ≤ r.body.days → r.body.days ≤ 106751 →
      duration r.body.days = r.body.days * 86400000000000) := by
  have hl : loadConfig w = (c, false) := by simp [loadConfig, hc]
  have hl2 : (loadConfig w).2 = false := by rw [hl]
  obtain ⟨co, uo⟩ := disk
  refine ⟨?_, ?_, ?_, ?_, ?_, rfl, fun h₁ h₂ => duration_of_range _ h₁ h₂⟩
  · intro hco
    simp only at hco
    subst hco
    rw [createUser_accepted env now _ r w hm hb hl2, hl]
    cases uo <;> rfl
  · intro huo
    simp only at huo
    subst huo
    rw [createUser_accepted env now _ r w hm hb hl2]
    cases co <;> rfl
  · rw [createUser_accepted env now _ r w hm hb hl2]
    rfl
  · intro hd
    simp only [allOk, Disk.mk.injEq] at hd
    obtain ⟨rfl, rfl⟩ := hd
    rw [createUser_accepted env now _ r w hm hb hl2, hl]
    simp [restartService, saveUsers, saveConfig]
  · intro k
    rw [createUser_accepted env now _ r w hm hb hl2,
      createUser_accepted env now _ { r with body := { r.body with ipLimit := k } } w hm hb hl2]

/-- Witness of C5: with both writes succeeding, `create("abc123", 30, 2)` on
2024-01-01 appends the record expiring on 2024-01-31 and answers with the same
`expired` value. -/
theorem createUser_postcondition_witness :
    (createUser utcEnv jan1 allOk (createFor 30) emptyWorld).2.userDB =
      .valid [⟨"abc123", "2024-01-31", "active"⟩] ∧
    (createUser utcEnv jan1 allOk (createFor 30) emptyWorld).1 =
      ⟨200, true, "User ZiVPN berhasil dibuat",
        .fields [("password", "abc123"), ("expired", "2024-01-31")]⟩ ∧
    duration 30 = 30 * 86400000000000 :=
  ⟨((createUser_postcondition utcEnv jan1 allOk (createFor 30) emptyWorld zeroConfig rfl rfl
      rfl).2.1 rfl).trans (by decide!),
   (createUser_postcondition utcEnv jan1 allOk (createFor 30) emptyWorld zeroConfig rfl rfl
      rfl).2.2.1.trans (by decide!),
   (createUser_postcondition utcEnv jan1 allOk (createFor 30) emptyWorld zeroConfig rfl rfl
      rfl).2.2.2.2.2.2 (by decide) (by decide)⟩

/-- C8, refuted as stated: for `days = 106752`, a value of the Go `int` field,
`time.Duration(days) * 24 * time.Hour` wraps to a negative number of
nanoseconds, and on 2024-01-01 (day 19723) the expiration `createUser`
computes is 1731-09-22 (day -87029), a date before today although `days ≥ 0`. -/
theorem createUser_days_overflow_counterexample :
    duration 106752 = -9223371273709551616 ∧
    expDate utcEnv jan1 106752 = "1731-09-22" ∧
    Time.day utcEnv ((nowAt jan1).add (duration 106752)) = -87029 ∧
    Time.day utcEnv (nowAt jan1) = 19723 ∧
    (createUser utcEnv jan1 allOk (createFor 106752) emptyWorld).1.status = 200 ∧
    (0 : Int) ≤ 106752 ∧
    Time.day utcEnv ((nowAt jan1).add (duration 106752)) < Time.day utcEnv (nowAt jan1) := by
  refine ⟨by decide, by decide!, by decide!, by decide, by decide!, by decide, by decide!⟩

/-- C8, amended: `createUser` rejects no `days` value, and when `days × 24h`
fits in 64-bit nanoseconds the expiration is exact. For a `POST` request with a
decodable body and a readable auth config the response is 200 whatever `days`
is and whatever the writes do; for `-106751 ≤ days ≤ 106751` the duration is
`days × 86400 × 10⁹` nanoseconds and the expiration is the local date of the
instant that duration after now; that date is not before today when `days ≥ 0`
and the UTC offset then is less than the one now by at most `days × 24h`, and
not after today when `days ≤ 0` and the UTC offset then is more than the one
now by at most `-days × 24h`. -/
theorem createUser_days_exact (env : Env) (now : Int) (disk : Disk) (r : Request) (w : World)
    (c : Config) (hm : r.method = "POST") (hb : r.bodyErr = false)
    (hc : w.configFile = .valid c) :
    (createUser env now disk r w).1.status = 200 ∧
    (createUser env now disk r w).1.success = true ∧
    (-106751 ≤ r.body.days → r.body.days ≤ 106751 →
      duration r.body.days = r.body.days * 86400000000000 ∧
      (createUser env now disk r w).1.data =
        .fields [("password", r.body.password),
          ("expired", formatDay (Time.day env (nowAt (now + r.body.days * 86400000000000))))] ∧
      (0 ≤ r.body.days →
        env.zone (now / 1000000000) - env.zone (now / 1000000000 + r.body.days * 86400) ≤
          86400 * r.body.days →
        Time.day env (nowAt now) ≤
          Time.day env (nowAt (now + r.body.days * 86400000000000))) ∧
      (r.body.days ≤ 0 →
        env.zone (now / 1000000000 + r.body.days * 86400) - env.zone (now / 1000000000) ≤
          86400 * (-r.body.days) →
        Time.day env (nowAt (now + r.body.days * 86400000000000)) ≤
          Time.day env (nowAt now))) := by
  have hl2 : (loadConfig w).2 = false := by simp [loadConfig, hc]
  rw [createUser_accepted env now disk r w hm hb hl2]
  refine ⟨rfl, rfl, ?_⟩
  intro h₁ h₂
  refine ⟨duration_of_range _ h₁ h₂, ?_, fun _ hz => localDay_le_of_nonneg env now _ hz,
    fun _ hz => localDay_le_of_nonpos env now _ hz⟩
  rw [expDate_of_range env now _ h₁ h₂]
  rfl

/-- Witness of C8: thirty days on 2024-01-01 in the UTC zone. -/
theorem createUser_days_exact_witness :
    (createUser utcEnv jan1 allOk (createFor 30) emptyWorld).1.status = 200 ∧
    duration 30 = 30 * 86400000000000 ∧
    Time.day utcEnv (nowAt jan1) ≤ Time.day utcEnv (nowAt (jan1 + 30 * 86400000000000)) :=
  ⟨(createUser_days_exact utcEnv jan1 allOk (createFor 30) emptyWorld zeroConfig rfl rfl rfl).1,
   ((createUser_days_exact utcEnv jan1 allOk (createFor 30) emptyWorld zeroConfig rfl rfl rfl).2.2
      (by decide) (by decide)).1,
   ((createUser_days_exact utcEnv jan1 allOk (createFor 30) emptyWorld zeroConfig rfl rfl rfl).2.2
      (by decide) (by decide)).2.2.1 (by decide) (by decide)⟩

/-- C6, refuted as stated: when the key file holds only a line break the
secret is the empty string, and a request without the header is passed to the
handler: `deleteUser` runs, answers 200 and rewrites both stores. -/
theorem authMiddleware_missing_header_counterexample :
    startupToken (some "\n") = "" ∧
    authMiddleware (startupToken (some "\n")) (deleteUser allOk) noKeyDelete sampleWorld =
      deleteUser allOk noKeyDelete sampleWorld ∧
    (authMiddleware (startupToken (some "\n")) (deleteUser allOk) noKeyDelete sampleWorld).1.status = 200 ∧
    (authMiddleware (startupToken (some "\n")) (deleteUser allOk) noKeyDelete sampleWorld).2.userDB =
      .valid [⟨"b", "2024-02-01", "active"⟩] ∧
    noKeyDelete.apiKey = none ∧
    (authMiddleware (startupToken (some "\n")) (deleteUser allOk) noKeyDelete sampleWorld).1.status ≠ 401 := by
  refine ⟨by decide, by decide, by decide, by decide, rfl, by decide⟩

/-- C6, amended: the auth gate compares the header value, which is the empty
string when the header is missing. For every secret, handler, request and
state: if that value differs from the secret the response is 401 with
`success = false`, whatever the handler is, and the state is the one before the
call; if it equals the secret the outcome is the handler's. In particular a
request without the header is answered 401 whenever the secret is not empty. -/
theorem authMiddleware_gate (token : String) (next : Handler) (r : Request) (w : World) :
    (headerGet r ≠ token →
      authMiddleware token next r w = (⟨401, false, "Unauthorized", .none⟩, w)) ∧
    (headerGet r = token → authMiddleware token next r w = next r w) ∧
    (token ≠ "" → r.apiKey = none →
      authMiddleware token next r w = (⟨401, false, "Unauthorized", .none⟩, w)) := by
  refine ⟨?_, ?_, ?_⟩
  · intro h
    simp [authMiddleware, h, jsonResponse]
  · intro h
    simp [authMiddleware, h]
  · intro ht hk
    have h : headerGet r ≠ token := by
      simp only [headerGet, hk]
      exact fun he => ht he.symm
    simp [authMiddleware, h, jsonResponse]

/-- Witness of C6: with the built-in secret, a delete request without the
header, and one with a wrong header value, are answered 401 and the stores are
as they were; with the header set to the secret the request reaches
`deleteUser`. -/
theorem authMiddleware_gate_witness :
    authMiddleware defaultToken (deleteUser allOk) noKeyDelete sampleWorld =
      (⟨401, false, "Unauthorized", .none⟩, sampleWorld) ∧
    authMiddleware defaultToken (deleteUser allOk)
        ⟨"POST", "/api/user/delete", some "wrong", ⟨"a", 0, 0⟩, false⟩ sampleWorld =
      (⟨401, false, "Unauthorized", .none⟩, sampleWorld) ∧
    authMiddleware defaultToken (deleteUser allOk) (sampleDelete "a") sampleWorld =
      deleteUser allOk (sampleDelete "a") sampleWorld :=
  ⟨(authMiddleware_gate defaultToken (deleteUser allOk) noKeyDelete sampleWorld).2.2 (by decide) rfl,
   (authMiddleware_gate defaultToken (deleteUser allOk)
      ⟨"POST", "/api/user/delete", some "wrong", ⟨"a", 0, 0⟩, false⟩ sampleWorld).1 (by decide),
   (authMiddleware_gate defaultToken (deleteUser allOk) (sampleDelete "a") sampleWorld).2.1 rfl⟩

/-- C10, refuted as stated, at two inputs, each a single call run to its
return through the mutex. When the registry write of the call fails, the call
is answered 200 and the auth config list gains `abc123`, but the registry gains
no entry. When the auth config file is missing, the call is answered 500 and
neither store gains an entry. -/
theorem concurrent_createUser_counterexample :
    ((run utcEnv (oneCall ⟨true, false⟩) oneSchedule (Sys.init 1 emptyWorld)).pc 0 =
        .done ⟨200, true, "User ZiVPN berhasil dibuat",
          .fields [("password", "abc123"), ("expired", "2024-01-31")]⟩ ∧
      authPasswords (run utcEnv (oneCall ⟨true, false⟩) oneSchedule (Sys.init 1 emptyWorld)).world =
        ["abc123"] ∧
      loadUsers (run utcEnv (oneCall ⟨true, false⟩) oneSchedule (Sys.init 1 emptyWorld)).world =
        []) ∧
    ((run utcEnv (oneCall allOk) oneSchedule (Sys.init 1 ⟨.missing, .valid [], []⟩)).pc 0 =
        .done ⟨500, false, "Gagal membaca config ZiVPN", .none⟩ ∧
      (run utcEnv (oneCall allOk) oneSchedule (Sys.init 1 ⟨.missing, .valid [], []⟩)).world =
        ⟨.missing, .valid [], []⟩) := by
  refine ⟨⟨by decide!, by decide!, by decide!⟩, ⟨by decide!, by decide!⟩⟩

/-- C10, amended: no lost update among concurrent `createUser` calls whose
writes succeed. Let `n` calls run concurrently, every step of every goroutine
interleaved as the schedule says and `mutex.Lock()` granted only while the
mutex is unlocked. Whenever a schedule has brought every handler to its
return, the final state is the one of the calls run one after the other in
some order, and each call got the response it gets in that sequential run.
When moreover the auth config is readable, every call is a `POST` with a
decodable body and every write succeeds, the auth config list is the old list
followed by the `n` passwords in that order, the registry is the old registry
followed by the `n` records in that order, so each store has exactly `n` new
entries, and every call was answered 200 with its own password and expiration.
Finally every schedule can be continued to one that brings every handler to
its return. -/
theorem concurrent_createUser_no_lost_update (env : Env) (n : Nat) (calls : Fin n → Call)
    (w : World) (sched : List (Fin n)) :
    ((run env calls sched (Sys.init n w)).allDone →
      ∃ order : List (Fin n), order.Perm (List.finRange n) ∧
        (run env calls sched (Sys.init n w)).world = serial env calls order w ∧
        (∀ i, ∃ pre post, order = pre ++ i :: post ∧
          (run env calls sched (Sys.init n w)).pc i =
            .done (createUser env (calls i).now (calls i).disk (calls i).req
              (serial env calls pre w)).1) ∧
        ∀ c, w.configFile = .valid c →
          (∀ i, (calls i).req.method = "POST" ∧ (calls i).req.bodyErr = false) →
          (∀ i, (calls i).disk = allOk) →
          authPasswords (run env calls sched (Sys.init n w)).world =
            c.auth.config ++ order.map (fun i => (calls i).req.body.password) ∧
          loadUsers (run env calls sched (Sys.init n w)).world =
            loadUsers w ++ order.map (fun i => (calls i).record env) ∧
          (authPasswords (run env calls sched (Sys.init n w)).world).length =
            c.auth.config.length + n ∧
          (loadUsers (run env calls sched (Sys.init n w)).world).length =
            (loadUsers w).length + n ∧
          ∀ i, (run env calls sched (Sys.init n w)).pc i =
            .done ⟨200, true, "User ZiVPN berhasil dibuat",
              .fields [("password", (calls i).req.body.password),
                ("expired", expDate env (calls i).now (calls i).req.body.days)]⟩) ∧
    ∃ more, (run env calls (sched ++ more) (Sys.init n w)).allDone := by
  have hinv := inv_run env calls w sched _ (inv_init env calls w)
  constructor
  · intro hd
    obtain ⟨order, hperm, hworld, hresp⟩ := serializable env calls w _ hinv hd
    refine ⟨order, hperm, hworld, hresp, ?_⟩
    intro c hc hreq hok
    obtain ⟨h1, h2⟩ := serial_accepted env calls order w c hc (fun i _ => hreq i)
      (fun i _ => hok i)
    have hlen : order.length = n := by rw [hperm.length_eq, List.length_finRange]
    refine ⟨?_, ?_, ?_, ?_, ?_⟩
    · rw [hworld]
      simp [authPasswords, loadConfig, h1]
    · rw [hworld, h2]
    · rw [hworld]
      simp [authPasswords, loadConfig, h1, hlen]
    · rw [hworld, h2]
      simp [hlen]
    · intro i
      obtain ⟨pre, post, _, hpc⟩ := hresp i
      obtain ⟨hp, _⟩ := serial_accepted env calls pre w c hc (fun j _ => hreq j)
        (fun j _ => hok j)
      have hl2 : (loadConfig (serial env calls pre w)).2 = false := by simp [loadConfig, hp]
      rw [hpc, createUser_accepted_after _ (hreq i).1 (hreq i).2 hl2]
      rfl
  · obtain ⟨more, hmore⟩ := completion env calls w _ _ hinv (Nat.le_refl _)
    exact ⟨more, by rw [run_append]; exact hmore⟩

/-- Witness of C10: two calls whose writes succeed, the second taking the mutex
first while the first keeps trying; once both have returned each store has two
new entries. -/
theorem concurrent_createUser_no_lost_update_witness :
    (run utcEnv twoCalls twoSchedule (Sys.init 2 emptyWorld)).allDone ∧
    (authPasswords (run utcEnv twoCalls twoSchedule (Sys.init 2 emptyWorld)).world).length = 0 + 2 ∧
    (loadUsers (run utcEnv twoCalls twoSchedule (Sys.init 2 emptyWorld)).world).length = 0 + 2 :=
  ⟨fun i => by revert i; decide!,
   Exists.elim ((concurrent_createUser_no_lost_update utcEnv 2 twoCalls emptyWorld twoSchedule).1
      (fun i => by revert i; decide!))
      (fun _ h => (h.2.2.2 zeroConfig rfl (by decide) (by decide)).2.2.1),
   Exists.elim ((concurrent_createUser_no_lost_update utcEnv 2 twoCalls emptyWorld twoSchedule).1
      (fun i => by revert i; decide!))
      (fun _ h => (h.2.2.2 zeroConfig rfl (by decide) (by decide)).2.2.2.1)⟩

end Zivpn
